import Mathlib

/-!
Verification of the solo-adventure rules engine (src/app/rules and the
entity/state model in src/app/state.py, src/app/profiles.py).

The Python source is shallowly embedded: every function below mirrors one
source function, keeping its name where Lean allows it.  Randomness is made
explicit: every function that rolls dice takes a `supply : List Int` of
pre-drawn die results and consumes it front to back, returning the remainder
(the source's `random.randint` is the only effectful primitive; the spec
requires it to be substitutable by a deterministic source).  Fallible code
(a Python `KeyError`, an exhausted roll supply, an unparseable dice
expression) is modelled with `Option`.
-/

namespace SoloAdv

/-- List `l₁` starts with list `l₂`. -/
def listStartsWith : List Char → List Char → Bool
  | _, [] => true
  | [], _ :: _ => false
  | a :: as, b :: bs => a = b && listStartsWith as bs

/-- List `hay` has `needle` as a contiguous sublist. -/
def listHasInfix (needle : List Char) : List Char → Bool
  | [] => listStartsWith [] needle
  | a :: as => listStartsWith (a :: as) needle || listHasInfix needle as

/-- Python `needle in hay` for strings (substring test). -/
def strContains (needle hay : String) : Bool :=
  listHasInfix needle.data hay.data

/-!
The next few helpers re-implement the Python string methods the engine uses
(`lower`, `upper`, `strip`, `replace`, `split`, `int(...)`, `in`) by
structural recursion over the character list, so that every function of the
embedding evaluates inside the kernel (the corresponding `String` library
functions are defined by well-founded recursion and do not reduce).  All
inputs the engine handles are ASCII, where these agree with Python.
-/

/-- ASCII lower-casing of one character (as `str.lower`). -/
def charLower (c : Char) : Char :=
  if 65 ≤ c.toNat ∧ c.toNat ≤ 90 then Char.ofNat (c.toNat + 32) else c

/-- ASCII upper-casing of one character (as `str.upper`). -/
def charUpper (c : Char) : Char :=
  if 97 ≤ c.toNat ∧ c.toNat ≤ 122 then Char.ofNat (c.toNat - 32) else c

/-- Python `str.lower()` (ASCII). -/
def strLower (s : String) : String :=
  ⟨s.data.map charLower⟩

/-- Python `str.upper()` (ASCII). -/
def strUpper (s : String) : String :=
  ⟨s.data.map charUpper⟩

/-- Whitespace as `str.strip()` sees it. -/
def isSpaceChar (c : Char) : Bool :=
  c = ' ' || c = '\t' || c = '\n' || c = '\r'

/-- Python `str.strip()`. -/
def strTrim (s : String) : String :=
  ⟨((s.data.dropWhile isSpaceChar).reverse.dropWhile isSpaceChar).reverse⟩

/-- Python `c in s` for a single character. -/
def strHasChar (s : String) (c : Char) : Bool :=
  s.data.contains c

/-- Replace every (non-overlapping, left-to-right) occurrence of `pat`,
fuelled by the list length (enough for one step per character). -/
def replaceAux (pat repl : List Char) : Nat → List Char → List Char
  | 0, l => l
  | fuel + 1, l =>
    match l with
    | [] => []
    | c :: rest =>
      if listStartsWith l pat then
        repl ++ replaceAux pat repl fuel (l.drop pat.length)
      else
        c :: replaceAux pat repl fuel rest

/-- Python `s.replace(pat, repl)` (for a nonempty `pat`; the engine never
replaces the empty string). -/
def strReplace (s pat repl : String) : String :=
  if pat = "" then s
  else ⟨replaceAux pat.data repl.data s.data.length s.data⟩

/-- Split on every (non-overlapping, left-to-right) occurrence of `sep`,
fuelled by the list length. -/
def splitOnAux (sep : List Char) : Nat → List Char → List (List Char)
  | 0, l => [l]
  | fuel + 1, l =>
    match l with
    | [] => [[]]
    | c :: rest =>
      if listStartsWith l sep then
        [] :: splitOnAux sep fuel (l.drop sep.length)
      else
        match splitOnAux sep fuel rest with
        | [] => [[c]]
        | x :: xs => (c :: x) :: xs

/-- Python `s.split(sep)` (for a nonempty separator). -/
def strSplitOn (s sep : String) : List String :=
  if sep = "" then [s]
  else (splitOnAux sep.data s.data.length s.data).map (fun l => ⟨l⟩)

/-- One ASCII digit? -/
def isDigitChar (c : Char) : Bool :=
  48 ≤ c.toNat && c.toNat ≤ 57

/-- The number a digit list denotes. -/
def digitsToNat (l : List Char) : Nat :=
  l.foldl (fun n c => n * 10 + (c.toNat - 48)) 0

/-- Python `int(s)` on an already-stripped string: an optional sign and at
least one digit (`none` models the `ValueError`). -/
def strToInt (s : String) : Option Int :=
  match s.data with
  | [] => none
  | '-' :: rest =>
    if rest ≠ [] ∧ rest.all isDigitChar then some (-(digitsToNat rest : Int)) else none
  | '+' :: rest =>
    if rest ≠ [] ∧ rest.all isDigitChar then some (digitsToNat rest) else none
  | l => if l.all isDigitChar then some (digitsToNat l) else none

/-- Python `str.isdigit` (ASCII digits; true only on a nonempty string). -/
def isDigits (s : String) : Bool :=
  !s.data.isEmpty && s.data.all isDigitChar

/-- Python format `f"{n:+d}"`: an integer rendered with an explicit sign. -/
def intSigned (n : Int) : String :=
  if 0 ≤ n then "+" ++ toString n else toString n

/-- Python `a or b` on an optional string: `None` and `""` fall through to
the default. -/
def strOr (o : Option String) (d : String) : String :=
  match o with
  | some s => if s = "" then d else s
  | none => d

/-! ## Dice engine (src/app/rules/dice.py) -/

/-- `roll_die(sides)`: draws the next value of the supply.  The `sides`
argument documents the intended range (the source draws uniformly from
`[1, sides]`); theorems that need the range state it as a hypothesis. -/
def roll_die (sides : Int) (supply : List Int) : Option (Int × List Int) :=
  match sides, supply with
  | _, [] => none
  | _, r :: rest => some (r, rest)

/-- Take exactly `n` values off the supply. -/
def takeExact : Nat → List Int → Option (List Int × List Int)
  | 0, xs => some ([], xs)
  | _ + 1, [] => none
  | n + 1, x :: xs =>
    match takeExact n xs with
    | none => none
    | some (ys, rest) => some (x :: ys, rest)

/-- `roll_dice(expr)`: parse `"NdM+B" | "NdM-B" | "NdM" | literal`, consume
`N` die results, return the total, the human-readable breakdown and the rest
of the supply.  The source splits on the first `"d"` / `"+"` / `"-"`
(`str.split(sep, 1)`); on the well-formed expressions the engine uses this
agrees with re-joining the tail of `splitOn`. -/
def roll_dice (expr : String) (supply : List Int) : Option (Int × String × List Int) :=
  let e := strReplace expr " " ""
  if ¬ strHasChar e 'd' then
    match strToInt e with
    | none => none
    | some v => some (v, toString v, supply)
  else
    let parts := strSplitOn e "d"
    let left := parts.headD ""
    let right := String.intercalate "d" parts.tail
    match (if left = "" then some 1 else strToInt left) with
    | none => none
    | some count =>
      let sidesBonus : String × Option Int :=
        if strHasChar right '+' then
          let ps := strSplitOn right "+"
          (ps.headD "", strToInt (String.intercalate "+" ps.tail))
        else if strHasChar right '-' then
          let ps := strSplitOn right "-"
          (ps.headD "", (strToInt (String.intercalate "-" ps.tail)).map (fun b => -b))
        else
          (right, some 0)
      match sidesBonus.2, strToInt sidesBonus.1 with
      | some bonus, some _sides =>
        match takeExact count.toNat supply with
        | none => none
        | some (rolls, rest) =>
          let total := rolls.sum + bonus
          let detail := String.intercalate "+" (rolls.map toString)
          let detail := if bonus ≠ 0 then detail ++ intSigned bonus else detail
          some (total, detail, rest)
      | _, _ => none

/-- `check(stat_bonus, dc)`: one d20, success iff roll + bonus ≥ dc. -/
def check (stat_bonus dc : Int) (supply : List Int) :
    Option ((Bool × Int × Int) × List Int) :=
  match roll_die 20 supply with
  | none => none
  | some (roll, rest) =>
    let total := roll + stat_bonus
    some ((decide (total ≥ dc), roll, total), rest)

/-! ## Items and the data model (src/app/state.py, src/app/content.py)

Items are Python dicts; the fields the rules engine reads are modelled as
structure fields, with each dict `.get(key, default)` default as the field
default (a dict missing a key and a dict holding the default are
indistinguishable to the engine). -/

/-- An item's `effect` sub-dict (`type`, `bonus`, `dice`). -/
structure Effect where
  type : String := ""
  bonus : Int := 0
  dice : String := "1d6"
deriving DecidableEq, BEq, Repr

/-- An inventory/equipment item (`campaign.items` entry). -/
structure Item where
  id : String := ""
  name : String := ""
  kind : String := ""
  slot : String := ""
  effect : Option Effect := none
  counts_toward_limit : Bool := true
deriving DecidableEq, BEq, Repr

/-- The six-stat block (`Character.stats`, keyed by `STAT_NAMES`). -/
structure Stats where
  STR : Int := 0
  DEX : Int := 0
  CON : Int := 0
  INT : Int := 0
  WIS : Int := 0
  CHA : Int := 0
deriving DecidableEq, Repr

/-- Python `stats.get(key, 0)`. -/
def Stats.get (s : Stats) (key : String) : Int :=
  if key = "STR" then s.STR
  else if key = "DEX" then s.DEX
  else if key = "CON" then s.CON
  else if key = "INT" then s.INT
  else if key = "WIS" then s.WIS
  else if key = "CHA" then s.CHA
  else 0

/-- The player (`Character` dataclass). -/
structure Character where
  name : String
  race : String := "Human"
  cls : String
  stats : Stats := {}
  hp : Int
  max_hp : Int
  ac : Int
  base_ac : Int
  mana : Int := 0
  max_mana : Int := 0
  attack_bonus : Int
  damage : String
  spark_uses : Int := 0
  gold : Int := 0
  xp : Int := 0
  level : Nat := 1
  learned_spells : List String := []
deriving DecidableEq, Repr

/-- A companion (`Companion` dataclass; the shared `Mob` shape plus mana,
spells and the defend threshold). -/
structure Companion where
  name : String
  hp : Int
  max_hp : Int
  ac : Int
  attack_bonus : Int
  damage : String
  mana : Int := 0
  max_mana : Int := 0
  learned_spells : List String := []
  defend_hp_threshold : Int := 3
deriving DecidableEq, Repr

/-- An active enemy (`Enemy` dataclass). -/
structure Enemy where
  name : String
  hp : Int
  max_hp : Int
  ac : Int
  attack_bonus : Int
  damage : String
  asleep : Bool := false
deriving DecidableEq, Repr

/-- A corpse record in the `"corpses"` flag
(`{"id": ..., "name": ..., "looted": ...}`). -/
structure Corpse where
  id : Int
  name : String
  looted : Bool
deriving DecidableEq, Repr

/-- A value of the open `state.flags` store.  The store is `Dict[str, Any]`;
these variants cover the shapes the engine writes (booleans, strings,
counters, room-id lists, and the corpse table). -/
inductive FlagVal where
  | bool (b : Bool)
  | int (n : Int)
  | str (s : String)
  | list (xs : List String)
  | table (m : List (String × List Corpse))
deriving DecidableEq, Repr

/-- A pending level-up decision (`state.pending_level_choices` entry). -/
structure PendingChoice where
  type : String
  choices : List String
  level : Nat
deriving DecidableEq, Repr

/-- The six equipment slots (`state.equipment`, keys fixed at creation). -/
structure Equipment where
  head : Option Item := none
  arms : Option Item := none
  hands : Option Item := none
  chest : Option Item := none
  legs : Option Item := none
  feet : Option Item := none
deriving DecidableEq, Repr

/-- The slot names, in the dict's insertion order. -/
def slotNames : List String := ["head", "arms", "hands", "chest", "legs", "feet"]

/-- Python `slot in state.equipment`. -/
def isSlot (slot : String) : Bool := slotNames.contains slot

/-- `state.equipment.get(slot)`: `none` for an unknown slot, otherwise the
slot's (possibly empty) content. -/
def Equipment.get (e : Equipment) (slot : String) : Option (Option Item) :=
  if slot = "head" then some e.head
  else if slot = "arms" then some e.arms
  else if slot = "hands" then some e.hands
  else if slot = "chest" then some e.chest
  else if slot = "legs" then some e.legs
  else if slot = "feet" then some e.feet
  else none

/-- `state.equipment[slot] = v` (unknown slot: unchanged; the source only
assigns after an `in` check). -/
def Equipment.set (e : Equipment) (slot : String) (v : Option Item) : Equipment :=
  if slot = "head" then { e with head := v }
  else if slot = "arms" then { e with arms := v }
  else if slot = "hands" then { e with hands := v }
  else if slot = "chest" then { e with chest := v }
  else if slot = "legs" then { e with legs := v }
  else if slot = "feet" then { e with feet := v }
  else e

/-- `state.equipment.values()`, in insertion order. -/
def Equipment.values (e : Equipment) : List (Option Item) :=
  [e.head, e.arms, e.hands, e.chest, e.legs, e.feet]

/-- The aggregate root (`GameState` dataclass).  Fields the combat,
exploration, inventory and progression rules touch are modelled; the
narration log and turn log, which no rule reads, are omitted. -/
structure GameState where
  campaign_id : String := ""
  player : Character
  room_id : String := ""
  companions : List Companion := []
  visited : List String := []
  flags : List (String × FlagVal) := []
  inventory : List Item := []
  equipment : Equipment := {}
  inventory_limit : Int := 10
  in_combat : Bool := false
  enemies : List Enemy := []
  turn : Int := 0
  last_event : String := ""
  last_player_input : String := ""
  player_defending : Bool := false
  companion_defending : Bool := false
  player_shield_active : Bool := false
  player_bless_active : Bool := false
  companion_bless_active : Bool := false
  game_over : Bool := false
  rest_streak : Int := 0
  pending_level_choices : List PendingChoice := []
deriving DecidableEq, Repr

/-- Placeholder for `state.companions[0]` on an empty list (the source
would raise `IndexError`; every reachable state has a companion). -/
def defaultCompanion : Companion :=
  { name := "", hp := 0, max_hp := 0, ac := 0, attack_bonus := 0, damage := "" }

/-- The `state.companion` property: the primary companion,
`state.companions[0]`. -/
def GameState.companion (st : GameState) : Companion :=
  st.companions.headD defaultCompanion

/-! ## Flag helpers (src/app/rules/flags.py) -/

/-- `state.flags.get(key)`. -/
def flagsGet (flags : List (String × FlagVal)) (key : String) : Option FlagVal :=
  (flags.find? (fun p => p.1 = key)).map (fun p => p.2)

/-- `state.flags[key] = v`: replace in place, or insert at the end (Python
dicts keep insertion order). -/
def flagsSet (flags : List (String × FlagVal)) (key : String) (v : FlagVal) :
    List (String × FlagVal) :=
  if flags.any (fun p => p.1 = key) then
    flags.map (fun p => if p.1 = key then (key, v) else p)
  else
    flags ++ [(key, v)]

/-- Python truthiness of `state.flags.get(key)` (`None` is falsy). -/
def truthy : Option FlagVal → Bool
  | none => false
  | some (.bool b) => b
  | some (.int n) => n ≠ 0
  | some (.str s) => s ≠ ""
  | some (.list xs) => ¬ xs.isEmpty
  | some (.table m) => ¬ m.isEmpty

/-- `get_flag_list`: return the list stored under `key`, storing `[]` first
when the key is absent.  (For a present non-list value the source coerces
with `list(value)`, a shape the engine never writes; modelled as leaving
the junk value in place and reading `[]`.) -/
def get_flag_list (st : GameState) (key : String) : List String × GameState :=
  match flagsGet st.flags key with
  | some (.list xs) => (xs, st)
  | none => ([], { st with flags := flagsSet st.flags key (.list []) })
  | some _ => ([], st)

/-- `get_flag_dict`: return the corpse table stored under `key`, storing an
empty table first when the stored value is absent or not a dict. -/
def get_flag_dict (st : GameState) (key : String) : List (String × List Corpse) × GameState :=
  match flagsGet st.flags key with
  | some (.table m) => (m, st)
  | _ => ([], { st with flags := flagsSet st.flags key (.table []) })

/-- `corpses[room_id] = entries` on the corpse table. -/
def tableSet (m : List (String × List Corpse)) (key : String) (v : List Corpse) :
    List (String × List Corpse) :=
  if m.any (fun p => p.1 = key) then
    m.map (fun p => if p.1 = key then (key, v) else p)
  else
    m ++ [(key, v)]

/-- `next_corpse_id`: read the counter (1 when absent or not an int), store
the counter + 1, return the read value. -/
def next_corpse_id (st : GameState) : Int × GameState :=
  let value := match flagsGet st.flags "next_corpse_id" with
    | some (.int n) => n
    | _ => 1
  (value, { st with flags := flagsSet st.flags "next_corpse_id" (.int (value + 1)) })

/-! ## Profiles and the content registry (src/app/profiles.py, src/app/content.py) -/

/-- A class template (`ClassProfile` dataclass). -/
structure ClassProfile where
  name : String
  role : String
  base_hp : Int
  base_ac : Int
  attack_bonus : Int
  damage : String
  spells : List String := []
  description : String := ""
  hp_per_level : Int := 1
deriving DecidableEq, Repr

/-- The loot table of a mob (`MobProfile.loot` dict: `gold` expression and
candidate item ids). -/
structure LootTable where
  gold : Option String := none
  items : List String := []
deriving DecidableEq, Repr

/-- A mob template (`MobProfile` dataclass). -/
structure MobProfile where
  name : String
  hp : Int := 1
  hp_expr : String := ""
  hp_min : Int := 1
  count : Int := 1
  ac : Int := 10
  attack_bonus : Int := 0
  damage : String := "1d4"
  loot : LootTable := {}
  ai : String := "focus_weakest"
  xp : Int := 0
deriving DecidableEq, Repr

/-- `CLASS_PROFILES`, the four built-in classes. -/
def CLASS_PROFILES : List ClassProfile :=
  [ { name := "Fighter", role := "melee", base_hp := 14, base_ac := 15,
      attack_bonus := 3, damage := "1d8+1", spells := [],
      description := "Hardy frontline combatant.", hp_per_level := 2 },
    { name := "Rogue", role := "melee", base_hp := 10, base_ac := 14,
      attack_bonus := 2, damage := "1d6+1", spells := [],
      description := "Agile skirmisher with precision strikes." },
    { name := "Wizard", role := "caster", base_hp := 8, base_ac := 12,
      attack_bonus := 1, damage := "1d4+1", spells := ["Spark"],
      description := "Arcane caster with limited stamina." },
    { name := "Cleric", role := "caster", base_hp := 12, base_ac := 14,
      attack_bonus := 2, damage := "1d6+1", spells := ["Cure Wounds"],
      description := "Divine healer and support caster.", hp_per_level := 1 } ]

/-- `get_class_profile(name)` (`CLASS_PROFILES[name]`, raising on an unknown
class: `none`). -/
def get_class_profile (name : String) : Option ClassProfile :=
  CLASS_PROFILES.find? (fun p => p.name = name)

/-- `is_caster_class(name)` (false for an unknown class). -/
def is_caster_class (name : String) : Bool :=
  match get_class_profile name with
  | some p => p.role = "caster"
  | none => false

/-- `rules.player.is_caster` forwards to `is_caster_class`. -/
def is_caster (cls : String) : Bool := is_caster_class cls

/-- The loot-room configuration dict (`Room.loot_config`); every key
optional, defaults applied at the use site exactly as the source's
`cfg.get(...)` calls do. -/
structure LootCfg where
  stat : Option String := none
  dc : Option Int := none
  success_msg : Option String := none
  fail_msg : Option String := none
  win_item_id : Option String := none
  game_over : Option Bool := none
deriving DecidableEq, Repr

/-- A room (`Room` dataclass; the social config, which no claim touches, is
omitted). -/
structure Room where
  room_id : String
  name : String := ""
  description : String := ""
  kind : String
  npc : Option String := none
  enemy_name : Option String := none
  loot : Option String := none
  loot_config : Option LootCfg := none
deriving DecidableEq, Repr

/-- The content registry for one campaign, passed explicitly (the source
resolves it from the process-wide `CAMPAIGNS` by `campaign_id`; lookups
into trusted static data raise on a missing key, hence `Option`). -/
structure CampaignData where
  items : String → Option Item
  mobs : String → Option MobProfile

/-- `item_from_id`: resolve an item id, or synthesize an "unknown" item. -/
def item_from_id (camp : CampaignData) (item_id : String) : Item :=
  match camp.items item_id with
  | some item => item
  | none => { id := "unknown", name := item_id, kind := "unknown", effect := none }

/-- `get_mob_profile` (`campaign.mobs[name]`, raising on a missing mob). -/
def get_mob_profile (camp : CampaignData) (name : String) : Option MobProfile :=
  camp.mobs name

/-! ## Spells (src/app/rules/spells.py) -/

/-- `SPELL_DAMAGE`: damage spells, name ↦ (damage expression, mana cost). -/
def SPELL_DAMAGE (name : String) : Option (String × Int) :=
  if name = "Spark" then some ("1d4", 2)
  else if name = "Magic Missile" then some ("1d6", 2)
  else if name = "Sacred Flame" then some ("1d6", 2)
  else none

/-- `get_best_damage_spell`: the first of the preference list that is both
learned and a damage spell. -/
def get_best_damage_spell (learned_spells : List String) : Option String :=
  ["Magic Missile", "Sacred Flame", "Spark"].find?
    (fun name => learned_spells.contains name && (SPELL_DAMAGE name).isSome)

/-- `WIZARD_LEARNABLE_SPELLS` / `CLERIC_LEARNABLE_SPELLS` via
`get_learnable_spells_for_class`. -/
def get_learnable_spells_for_class (cls : String) : List String :=
  if cls = "Wizard" then ["Magic Missile", "Shield", "Sleep"]
  else if cls = "Cleric" then ["Sacred Flame", "Shield", "Bless"]
  else []

/-- `get_spell_choices_for_level`: unlearned learnable spells, offered at
even levels ≥ 2. -/
def get_spell_choices_for_level (cls : String) (level : Nat) (learned_spells : List String) :
    List String :=
  let learnable := get_learnable_spells_for_class cls
  if learnable.isEmpty then []
  else if level < 2 ∨ level % 2 ≠ 0 then []
  else learnable.filter (fun s => ¬ learned_spells.contains s)

/-! ## Inventory and equipment (src/app/rules/inventory.py) -/

/-- `item_counts_toward_limit` (`bool(item.get("counts_toward_limit", True))`). -/
def item_counts_toward_limit (item : Item) : Bool :=
  item.counts_toward_limit

/-- `inventory_used`: the number of limit-counted items.  (The source also
counts legacy non-dict entries; the model's inventory holds items only.) -/
def inventory_used (st : GameState) : Int :=
  st.inventory.foldl (fun count item => if item_counts_toward_limit item then count + 1 else count) 0

/-- `can_add_item`: non-counting items always fit; counted items need a
free slot below `inventory_limit`. -/
def can_add_item (st : GameState) (item : Item) : Bool :=
  if ¬ item_counts_toward_limit item then true
  else inventory_used st < st.inventory_limit

/-- `add_item_to_inventory`: append if it fits, else fail with
"Inventory is full.". -/
def add_item_to_inventory (st : GameState) (item : Item) : Bool × String × GameState :=
  if ¬ can_add_item st item then (false, "Inventory is full.", st)
  else (true, s!"Added {item.name} to your pack.", { st with inventory := st.inventory ++ [item] })

/-- `equipment_ac_bonus`: the sum of `effect.type == "ac"` bonuses over the
equipped items, in slot order. -/
def equipment_ac_bonus (st : GameState) : Int :=
  st.equipment.values.foldl
    (fun bonus slotContent =>
      match slotContent with
      | none => bonus
      | some item =>
        match item.effect with
        | none => bonus
        | some e => if e.type = "ac" then bonus + e.bonus else bonus)
    0

/-- `sync_player_ac`: effective AC := base AC + equipment bonus. -/
def sync_player_ac (st : GameState) : GameState :=
  { st with player := { st.player with ac := st.player.base_ac + equipment_ac_bonus st } }

/-- `find_item`: fuzzy item lookup over the inventory (exact name/id,
substring of the name, or a kind keyword), optionally restricted to one
kind; ambiguous matches fail with a "be more specific" message. -/
def find_item (st : GameState) (query : String) (kind_filter : Option String) :
    Option Item × Option String :=
  let q := strLower (strTrim query)
  if q = "" then (none, some "Use what?")
  else
    let found := st.inventory.filter (fun item =>
      let name := strLower item.name
      let item_id := strLower item.id
      let kind := strLower item.kind
      (match kind_filter with
       | some kf => kind = kf
       | none => true) &&
      (q = name || q = item_id || strContains q name ||
       (kind = "potion" && (q = "potion" || q = "healing" || q = "heal")) ||
       (kind = "armor" && (q = "armor" || q = "armour"))))
    match found with
    | [] => (none, some "You don't have that.")
    | [item] => (some item, none)
    | _ =>
      let names := String.intercalate ", " (found.map (fun item => item.name))
      (none, some s!"Be more specific or use an item number: {names}")

/-- `use_item`'s heal-target resolution outcome. -/
inductive HealSide where
  | player
  | companion
deriving DecidableEq, Repr

/-- `use_item(query, target)`: resolve a potion, pick the heal target
(explicit keyword, else the side with the lower HP ratio, ties in the
player's favor), heal `min(rolled, missing)`, consume the item.  The source
compares float ratios `hp / max(1, max_hp)`; the model compares the exact
fractions by cross-multiplication. -/
def use_item (st : GameState) (query : String) (target : Option String) (supply : List Int) :
    Option ((Bool × String) × GameState × List Int) :=
  match find_item st query (some "potion") with
  | (_, some error) => some ((false, error), st, supply)
  | (none, none) => some ((false, "You don't have that."), st, supply)
  | (some item, none) =>
    if strLower item.kind ≠ "potion" then
      some ((false, s!"{item.name} can't be used right now."), st, supply)
    else
      let effect := item.effect.getD {}
      if effect.type ≠ "heal" then
        some ((false, s!"{item.name} has no usable effect yet."), st, supply)
      else
        let target_key := strLower (strTrim (target.getD ""))
        let companion := st.companion
        let side : HealSide :=
          if target_key = "mara" ∨ target_key = "companion" ∨ target_key = "her" then
            .companion
          else if target_key = "me" ∨ target_key = "self" ∨ target_key = "player" ∨
              target_key = "you" then
            .player
          else if companion.hp > 0 ∧
              companion.hp * max 1 st.player.max_hp < st.player.hp * max 1 companion.max_hp then
            .companion
          else
            .player
        let target_label := match side with
          | .player => st.player.name
          | .companion => companion.name
        let current_hp := match side with
          | .player => st.player.hp
          | .companion => companion.hp
        let maxHp := match side with
          | .player => st.player.max_hp
          | .companion => companion.max_hp
        match roll_dice effect.dice supply with
        | none => none
        | some (amount, detail, rest) =>
          let new_hp := min maxHp (current_hp + amount)
          let healed := new_hp - current_hp
          let st := match side with
            | .player => { st with player := { st.player with hp := new_hp } }
            | .companion =>
              { st with companions :=
                  st.companions.set 0 { companion with hp := new_hp } }
          let st := { st with inventory := st.inventory.erase item }
          some ((true, s!"You use {item.name} on {target_label}, healing {healed} ({detail})."),
            st, rest)

/-- The item-resolution step of `equip_item`: a 1-based inventory index
(armor only), or a fuzzy armor lookup.  Left: the resolved item; right: the
error message. -/
def equip_resolve (st : GameState) (query : String) : Item ⊕ String :=
  if isDigits query then
    let idx : Int := ((strToInt query).getD 0) - 1
    if idx < 0 ∨ idx ≥ (st.inventory.length : Int) then
      .inr "That item number does not exist."
    else
      let item := st.inventory.getD idx.toNat {}
      if strLower item.kind ≠ "armor" then .inr "That item is not armor."
      else .inl item
  else
    match find_item st query (some "armor") with
    | (_, some error) => .inr error
    | (none, none) => .inr "You don't have that."
    | (some item, none) => .inl item

/-- `equip_item(query)`: resolve an armor item, swap any occupant of its
slot back into the inventory (failing when the occupant does not fit),
place the item, re-sync AC. -/
def equip_item (st : GameState) (query : String) : Bool × String × GameState :=
  match equip_resolve st (strTrim query) with
  | .inr error => (false, error, st)
  | .inl item =>
    let slot := strLower item.slot
    if ¬ isSlot slot then (false, "That armor can't be equipped.", st)
    else
      let current := (st.equipment.get slot).join
      let afterSwap : Option GameState :=
        match current with
        | some cur =>
          if ¬ can_add_item st cur then none
          else some { st with inventory := st.inventory ++ [cur] }
        | none => some st
      match afterSwap with
      | none => (false, "Inventory is full; unequip something first.", st)
      | some st1 =>
        let st2 := { st1 with equipment := st1.equipment.set slot (some item) }
        let st3 := { st2 with inventory := st2.inventory.erase item }
        let st4 := sync_player_ac st3
        (true, s!"Equipped {item.name} to {slot}.", st4)

/-- `unequip_item(slot)`: move the slot's occupant back to the inventory
(failing when it does not fit), empty the slot, re-sync AC. -/
def unequip_item (st : GameState) (slot : String) : Bool × String × GameState :=
  let slot_key := strLower (strTrim slot)
  if ¬ isSlot slot_key then (false, "Unknown equipment slot.", st)
  else
    match (st.equipment.get slot_key).join with
    | none => (false, "That slot is already empty.", st)
    | some current =>
      if ¬ can_add_item st current then (false, "Inventory is full.", st)
      else
        let st1 := { st with inventory := st.inventory ++ [current] }
        let st2 := { st1 with equipment := st1.equipment.set slot_key none }
        let st3 := sync_player_ac st2
        (true, s!"Removed {current.name} from {slot_key}.", st3)

/-! ## Experience and leveling (src/app/rules/experience.py) -/

/-- `XP_TABLE`: XP needed for each level (index 0 = level 1, ...). -/
def XP_TABLE : List Int := [0, 100, 250, 500, 1000, 2000, 3500, 5000, 7000, 10000]

/-- `xp_for_level(level)`: XP required to reach this level. -/
def xp_for_level (level : Nat) : Int :=
  if level = 0 then 0
  else XP_TABLE.getD (min (level - 1) (XP_TABLE.length - 1)) 0

/-- `_check_level_up`: enough XP for the next level, and the table not yet
exhausted. -/
def check_level_up (st : GameState) : Bool :=
  decide (st.player.xp ≥ xp_for_level (st.player.level + 1)) &&
    decide (st.player.level < XP_TABLE.length)

/-- The `state.player` mutation block of `_apply_level_up`: level + 1, HP
and max HP + the class's `hp_per_level`, +1 attack bonus on even levels,
casters' max mana + 2 with a full refill. -/
def levelUpPlayer (profile : ClassProfile) (p : Character) : Character :=
  let level' := p.level + 1
  let hp_per_level := profile.hp_per_level
  let p1 := { p with
    level := level',
    max_hp := p.max_hp + hp_per_level,
    hp := p.hp + hp_per_level }
  let p2 := if level' % 2 = 0 then { p1 with attack_bonus := p1.attack_bonus + 1 } else p1
  if is_caster p2.cls then
    { p2 with max_mana := p2.max_mana + 2, mana := p2.max_mana + 2 }
  else p2

theorem levelUpPlayer_level (profile : ClassProfile) (p : Character) :
    (levelUpPlayer profile p).level = p.level + 1 := by
  simp only [levelUpPlayer]
  split <;> split <;> rfl

/-- `_apply_level_up`: one level-up — mutate the player via `levelUpPlayer`
and queue a spell choice when the class offers one at the new level.
`none` when the class profile is missing (a `KeyError` in the source). -/
def apply_level_up (st : GameState) : Option (String × GameState) :=
  match get_class_profile st.player.cls with
  | none => none
  | some profile =>
    let level' := st.player.level + 1
    let p3 := levelUpPlayer profile st.player
    let choices := get_spell_choices_for_level p3.cls level' p3.learned_spells
    let st' := { st with player := p3 }
    let pending' := st'.pending_level_choices ++
      [{ type := "spell", choices := choices, level := level' : PendingChoice }]
    let st' := if ¬ choices.isEmpty then { st' with pending_level_choices := pending' } else st'
    let newLevel := level'
    some (s!"Level up! {p3.name} is now level {newLevel}.", st')

theorem apply_level_up_level (st : GameState) (msg : String) (st' : GameState)
    (h : apply_level_up st = some (msg, st')) : st'.player.level = st.player.level + 1 := by
  unfold apply_level_up at h
  cases hp : get_class_profile st.player.cls with
  | none => simp [hp] at h
  | some profile =>
    simp only [hp, Option.some.injEq, Prod.mk.injEq] at h
    obtain ⟨-, h2⟩ := h
    subst h2
    split <;> simp [levelUpPlayer_level]

/-- The `while _check_level_up` loop of `grant_xp`: apply level-ups while
the check passes, collecting the messages. -/
def grantLoop (st : GameState) : Option (List String × GameState) :=
  if h : check_level_up st then
    match h2 : apply_level_up st with
    | none => none
    | some (msg, st') =>
      match grantLoop st' with
      | none => none
      | some (msgs, st'') => some (msg :: msgs, st'')
  else
    some ([], st)
termination_by XP_TABLE.length + 1 - st.player.level
decreasing_by
  have hlvl := apply_level_up_level st msg st' h2
  simp only [check_level_up, Bool.and_eq_true, decide_eq_true_eq] at h
  omega

/-- `grant_xp(amount)`: add the amount to the player's XP, then run the
level-up loop; non-positive amounts are a no-op. -/
def grant_xp (st : GameState) (amount : Int) : Option (List String × GameState) :=
  if amount ≤ 0 then some ([], st)
  else grantLoop { st with player := { st.player with xp := st.player.xp + amount } }

/-! ## Combat (src/app/rules/combat.py) -/

/-- Placeholder for an out-of-range enemy index (`IndexError` territory in
the source; never reached through `aliveIndices`). -/
def defaultEnemy : Enemy :=
  { name := "", hp := 0, max_hp := 0, ac := 0, attack_bonus := 0, damage := "" }

/-- `_attack_roll`: d20 + bonus vs AC (+2 while the target defends). -/
def _attack_roll (attacker_bonus target_ac : Int) (target_defending : Bool)
    (supply : List Int) : Option ((Bool × Int × Int) × List Int) :=
  match roll_die 20 supply with
  | none => none
  | some (roll, rest) =>
    let total := roll + attacker_bonus
    let effective_ac := target_ac + (if target_defending then 2 else 0)
    some ((decide (total ≥ effective_ac), roll, total), rest)

/-- `_apply_damage`: evaluate the damage expression (+ flat bonus), floor the
target's HP at 0, and render the breakdown. -/
def _apply_damage (target_hp : Int) (damage_expr : String) (bonus : Int)
    (supply : List Int) : Option ((Int × String) × List Int) :=
  match roll_dice damage_expr supply with
  | none => none
  | some (damage0, detail0, rest) =>
    let detail := if bonus ≠ 0 then detail0 ++ intSigned bonus else detail0
    let damage := damage0 + bonus
    some ((max 0 (target_hp - damage), s!"{damage} ({detail})"), rest)

/-- Indices of the living enemies, in order (the source works with object
references into `state.enemies`; the model uses positions). -/
def aliveIndices (enemies : List Enemy) : List Nat :=
  (List.range enemies.length).filter (fun i => (enemies.getD i defaultEnemy).hp > 0)

/-- `_select_enemy(query)`: default = the living enemy with the lowest
current HP (first on ties, as Python's `min`); a digit query is a 1-based
index among the living; otherwise a substring match on names, ambiguous or
empty matches failing. -/
def _select_enemy (st : GameState) (query : Option String) : Option Nat × Option String :=
  if st.enemies.isEmpty then (none, some "There's nothing to attack.")
  else
    let hpAt := fun (i : Nat) => (st.enemies.getD i defaultEnemy).hp
    let nameAt := fun (i : Nat) => (st.enemies.getD i defaultEnemy).name
    match aliveIndices st.enemies with
    | [] => (none, some "There's nothing to attack.")
    | j :: js =>
      let qv := query.getD ""
      if qv = "" then
        (some (js.foldl (fun best i => if hpAt i < hpAt best then i else best) j), none)
      else
        let token := strLower (strTrim qv)
        if isDigits token then
          let idx : Int := ((strToInt token).getD 0) - 1
          if idx < 0 ∨ idx ≥ ((j :: js).length : Int) then
            (none, some "That target doesn't exist.")
          else (some ((j :: js).getD idx.toNat 0), none)
        else
          match (j :: js).filter (fun i => strContains token (strLower (nameAt i))) with
          | [] => (none, some "No such target.")
          | [i] => (some i, none)
          | _ => (none, some "Be more specific.")

/-- `apply_player_action(action, target)`: clear the defend stance, then
defend / attack / special (Wizard: cast the best damage spell for mana;
Fighter: +2 flat damage; Rogue: +2 to hit), resolving one attack roll plus
damage on a hit. -/
def apply_player_action (st0 : GameState) (action : String) (target : Option String)
    (supply : List Int) : Option (String × GameState × List Int) :=
  let action := strLower action
  let st := { st0 with player_defending := false }
  if action = "defend" then
    some (s!"{st.player.name} takes a defensive stance (+2 AC until next attack).",
      { st with player_defending := true }, supply)
  else
    match _select_enemy st target with
    | (_, some error) => some (error, st, supply)
    | (none, none) => some ("There's nothing to attack.", st, supply)
    | (some tIdx, none) =>
      let enemy := st.enemies.getD tIdx defaultEnemy
      let step : (Int × Int × String × String × GameState) ⊕ String :=
        if action = "special" then
          if st.player.cls = "Wizard" then
            match get_best_damage_spell st.player.learned_spells with
            | none => .inr "You have no damage spells to cast."
            | some spell_name =>
              match SPELL_DAMAGE spell_name with
              | none => .inr "You have no damage spells to cast."
              | some (dexpr, mana_cost) =>
                if st.player.mana < mana_cost then .inr "You are out of mana."
                else
                  .inl (0, st.player.attack_bonus + st.player.stats.get "INT", dexpr,
                    s!"You channel {spell_name}. ",
                    { st with player := { st.player with mana := st.player.mana - mana_cost } })
          else if st.player.cls = "Fighter" then
            .inl (2, st.player.attack_bonus, st.player.damage,
              "You drive a heavy power strike. ", st)
          else if st.player.cls = "Rogue" then
            .inl (0, st.player.attack_bonus + 2, st.player.damage,
              "You line up a precise shot. ", st)
          else
            .inl (0, st.player.attack_bonus, st.player.damage, "", st)
        else
          .inl (0, st.player.attack_bonus, st.player.damage, "", st)
      match step with
      | .inr msg => some (msg, st, supply)
      | .inl (special_bonus, attack_bonus, damage_expr, flavor, st) =>
        match _attack_roll attack_bonus enemy.ac false supply with
        | none => none
        | some ((hit, roll, total), supply) =>
          if hit then
            match _apply_damage enemy.hp damage_expr special_bonus supply with
            | none => none
            | some ((new_hp, detail), supply) =>
              let st := { st with enemies := st.enemies.set tIdx { enemy with hp := new_hp } }
              some (s!"{flavor}Hit {enemy.name} (roll {roll} -> {total}) for {detail} damage.",
                st, supply)
          else
            some (s!"{flavor}Miss {enemy.name} (roll {roll} -> {total}).", st, supply)

/-- `pick_target_by_hp` (src/app/util.py): the side with the lower HP;
Python's `min` keeps the first of equals, so ties go to the earlier entry. -/
def pick_target_by_hp (options : List (String × Int)) : String :=
  match options with
  | [] => ""
  | x :: xs => (xs.foldl (fun best item => if item.2 < best.2 then item else best) x).1

/-- The target-selection block of `apply_enemy_action` (combat.py lines
157–167): `focus_player` / `focus_companion` honor their side while it
stands; any other AI string (the default `focus_weakest`) picks the living
side with the lower current HP via `pick_target_by_hp`. -/
def enemyChooseTarget (camp : CampaignData) (st : GameState) (enemy : Enemy) :
    Option String :=
  match get_mob_profile camp enemy.name with
  | none => none
  | some profile =>
    let companion := st.companion
    if profile.ai = "focus_player" then
      some (if st.player.hp > 0 then "player" else "companion")
    else if profile.ai = "focus_companion" then
      some (if companion.hp > 0 then "companion" else "player")
    else
      let targets := [("player", st.player.hp)] ++
        (if companion.hp > 0 then [("companion", companion.hp)] else [])
      some (pick_target_by_hp targets)

/-- One enemy's attack against the chosen side. -/
def enemyAttackStep (st : GameState) (enemy : Enemy) (target : String)
    (supply : List Int) : Option (String × GameState × List Int) :=
  if target = "player" then
    match _attack_roll enemy.attack_bonus st.player.ac st.player_defending supply with
    | none => none
    | some ((hit, roll, total), supply) =>
      if hit then
        match _apply_damage st.player.hp enemy.damage 0 supply with
        | none => none
        | some ((new_hp, detail), supply) =>
          some (s!"{enemy.name} strikes {st.player.name} (roll {roll} -> {total}) for {detail} damage.",
            { st with player := { st.player with hp := new_hp } }, supply)
      else
        some (s!"{enemy.name} misses {st.player.name} (roll {roll} -> {total}).", st, supply)
  else
    let companion := st.companion
    match _attack_roll enemy.attack_bonus companion.ac st.companion_defending supply with
    | none => none
    | some ((hit, roll, total), supply) =>
      if hit then
        match _apply_damage companion.hp enemy.damage 0 supply with
        | none => none
        | some ((new_hp, detail), supply) =>
          some (s!"{enemy.name} lashes at {companion.name} (roll {roll} -> {total}) for {detail} damage.",
            { st with companions := st.companions.set 0 { companion with hp := new_hp } }, supply)
      else
        some (s!"{enemy.name} misses {companion.name} (roll {roll} -> {total}).", st, supply)

/-- The per-enemy loop of `apply_enemy_action` over the snapshot of living
enemies taken at entry. -/
def enemyLoop (camp : CampaignData) (st : GameState) (supply : List Int) :
    List Enemy → Option (List String × GameState × List Int)
  | [] => some ([], st, supply)
  | enemy :: rest =>
    match enemyChooseTarget camp st enemy with
    | none => none
    | some target =>
      match enemyAttackStep st enemy target supply with
      | none => none
      | some (msg, st', supply') =>
        match enemyLoop camp st' supply' rest with
        | none => none
        | some (msgs, st'', supply'') => some (msg :: msgs, st'', supply'')

/-- `apply_enemy_action`: every living enemy picks a side per its AI policy
and attacks it. -/
def apply_enemy_action (camp : CampaignData) (st : GameState) (supply : List Int) :
    Option (List String × GameState × List Int) :=
  let alive := st.enemies.filter (fun e => e.hp > 0)
  if alive.isEmpty then some (["The foes are down."], st, supply)
  else enemyLoop camp st supply alive

/-- The corpse-record loop of `end_combat_if_needed`: one entry per defeated
enemy, ids drawn from `next_corpse_id`. -/
def corpseEntriesLoop (st : GameState) : List Enemy → List Corpse × GameState
  | [] => ([], st)
  | e :: es =>
    let (cid, st') := next_corpse_id st
    let (rest, st'') := corpseEntriesLoop st' es
    ({ id := cid, name := e.name, looted := false } :: rest, st'')

/-- `end_combat_if_needed`: with no active enemies, a no-op returning no
message; all enemies at ≤ 0 HP ends combat in victory (record the room as
defeated once, grant the mobs' XP, materialize corpse records, clear the
enemy list, report); otherwise a player at ≤ 0 HP is a defeat. -/
def end_combat_if_needed (camp : CampaignData) (st : GameState) :
    Option (Option String × GameState) :=
  if st.enemies.isEmpty then some (none, st)
  else if st.enemies.all (fun e => e.hp ≤ 0) then
    let st := { st with in_combat := false }
    let defSt := get_flag_list st "defeated_rooms"
    let defeated_rooms := defSt.1
    let st := defSt.2
    let defeated' := if defeated_rooms.contains st.room_id then defeated_rooms
      else defeated_rooms ++ [st.room_id]
    let st := { st with flags := flagsSet st.flags "defeated_rooms" (.list defeated') }
    match st.enemies.mapM (fun e => (get_mob_profile camp e.name).map (fun p => p.xp)) with
    | none => none
    | some xps =>
      let total_xp := xps.sum
      match (if total_xp > 0 then grant_xp st total_xp else some ([], st)) with
      | none => none
      | some (level_messages, st) =>
        let corpSt := get_flag_dict st "corpses"
        let corpsesMap := corpSt.1
        let st := corpSt.2
        let entSt := corpseEntriesLoop st st.enemies
        let entries := entSt.1
        let st := entSt.2
        let corpsesFlag : FlagVal := .table (tableSet corpsesMap st.room_id entries)
        let st := { st with flags := flagsSet st.flags "corpses" corpsesFlag }
        let st := { st with enemies := [] }
        let corpse_list := String.intercalate ", "
          (entries.map (fun entry => s!"{entry.id}. {entry.name}"))
        let hint := if entries.any (fun entry => ¬ entry.looted) then
            " You can 'loot <number>' or 'loot all'."
          else ""
        let parts := [s!"The foes fall. Corpses: {corpse_list}.{hint} The way forward is clear."]
        let parts := if total_xp > 0 then parts ++ [s!"XP +{total_xp}."] else parts
        let parts := parts ++ level_messages
        some (some (String.intercalate " " parts), st)
  else if st.player.hp ≤ 0 then
    some (some "You collapse from your wounds. The watchtower claims another victim.",
      { st with game_over := true })
  else
    some (none, st)

/-! ## Enemy creation (src/app/rules/enemies.py) -/

/-- `_roll_mob_hp`'s per-unit loop: roll the HP expression `n` times, each
roll floored at `minimum`. -/
def rollMobHpLoop (expr : String) (minimum : Int) :
    Nat → List Int → Option (Int × List Int)
  | 0, supply => some (0, supply)
  | n + 1, supply =>
    match roll_dice expr supply with
    | none => none
    | some (roll, _detail, rest) =>
      match rollMobHpLoop expr minimum n rest with
      | none => none
      | some (total, rest') => some (max minimum roll + total, rest')

/-- `_roll_mob_hp(expr, minimum, count)`. -/
def _roll_mob_hp (expr : String) (minimum : Int) (count : Int) (supply : List Int) :
    Option (Int × List Int) :=
  rollMobHpLoop expr minimum (max 1 count).toNat supply

/-- The per-unit loop of `create_enemies`: each unit rolls its own HP when
the template has an HP expression. -/
def createEnemiesLoop (template : MobProfile) (name : String) :
    Nat → List Int → Option (List Enemy × List Int)
  | 0, supply => some ([], supply)
  | n + 1, supply =>
    let hpStep := if template.hp_expr ≠ "" then
        _roll_mob_hp template.hp_expr template.hp_min 1 supply
      else some (template.hp, supply)
    match hpStep with
    | none => none
    | some (hp, rest) =>
      match createEnemiesLoop template name n rest with
      | none => none
      | some (es, rest') =>
        let enemy : Enemy := { name := name, hp := hp, max_hp := hp,
                               ac := template.ac,
                               attack_bonus := template.attack_bonus,
                               damage := template.damage }
        some (enemy :: es, rest')

/-- `create_enemies(name)`: `max(1, count)` units from the mob template. -/
def create_enemies (camp : CampaignData) (name : String) (supply : List Int) :
    Option (List Enemy × List Int) :=
  match get_mob_profile camp name with
  | none => none
  | some template => createEnemiesLoop template name (max 1 template.count).toNat supply

/-! ## Exploration (src/app/rules/exploration.py) -/

/-- `start_room`: record the visit; an undefeated combat room spawns its
enemies (when none are active) and turns combat on; every other room (and a
defeated combat room) just returns its description. -/
def start_room (camp : CampaignData) (st : GameState) (room : Room) (supply : List Int) :
    Option (String × GameState × List Int) :=
  let st := if st.visited.contains room.room_id then st
    else { st with visited := st.visited ++ [room.room_id] }
  let defSt := get_flag_list st "defeated_rooms"
  let defeated_rooms := defSt.1
  let st := defSt.2
  if room.kind = "combat" ∧ ¬ defeated_rooms.contains room.room_id then
    let spawn : Option (GameState × List Int) :=
      if st.enemies.isEmpty then
        match create_enemies camp (strOr room.enemy_name "Watchtower Bandit") supply with
        | none => none
        | some (es, rest) => some ({ st with enemies := es }, rest)
      else some (st, supply)
    match spawn with
    | none => none
    | some (st, supply) =>
      let activeFlag : FlagVal := .str (st.enemies.headD defaultEnemy).name
      let st := if ¬ st.enemies.isEmpty then
          { st with flags := flagsSet st.flags "active_enemy_name" activeFlag }
        else st
      let st := { st with in_combat := true }
      let enemy_name := strOr room.enemy_name "enemies"
      some (s!"A fight breaks out with {enemy_name}.", st, supply)
  else
    some (room.description, st, supply)

/-- Python `str.format(roll=..., total=...)` on the configured messages. -/
def formatRollTotal (msg : String) (roll total : Int) : String :=
  strReplace (strReplace msg "{roll}" (toString roll)) "{total}" (toString total)

/-- `cfg.get("stat", "DEX")`, uppercased. -/
def lootStatKey (room : Room) : String :=
  strUpper ((room.loot_config.getD {}).stat.getD "DEX")

/-- `cfg.get("dc", 13)`. -/
def lootDc (room : Room) : Int :=
  (room.loot_config.getD {}).dc.getD 13

/-- `cfg.get("win_item_id") or room.loot`. -/
def lootWinItemId (room : Room) : Option String :=
  match (room.loot_config.getD {}).win_item_id with
  | some s => if s = "" then room.loot else some s
  | none => room.loot

/-- `cfg.get("game_over", True)`. -/
def lootGameOver (room : Room) : Bool :=
  (room.loot_config.getD {}).game_over.getD true

/-- `_handle_loot_room(action)`: a taken chest short-circuits; otherwise
`search/open/loot/inspect` runs the configured stat check — success
materializes the win item (early-returning a degraded retry message when
the inventory is full), marks the loot taken and applies the configured
game-over; failure sets the fail flag.  `none` result = action not handled
by this room kind. -/
def _handle_loot_room (camp : CampaignData) (st : GameState) (room : Room) (action : String)
    (supply : List Int) : Option (Option String × GameState × List Int) :=
  if action = "search" ∨ action = "open" ∨ action = "loot" ∨ action = "inspect" then
    if truthy (flagsGet st.flags "loot_taken") then
      some (some "The chest is already open and empty.", st, supply)
    else
      let stat_bonus := st.player.stats.get (lootStatKey room)
      match check stat_bonus (lootDc room) supply with
      | none => none
      | some ((success, roll, total), supply) =>
        if success then
          let addStep : GameState ⊕ String :=
            match lootWinItemId room with
            | some win_item_id =>
              let item := item_from_id camp win_item_id
              let addRes := add_item_to_inventory st item
              if ¬ addRes.1 then
                .inr (s!"You force the lock (roll {roll} -> {total}) but " ++
                  strLower addRes.2.1 ++ " You can rearrange your gear and try again.")
              else .inl addRes.2.2
            | none => .inl st
          match addStep with
          | .inr msg => some (some msg, st, supply)
          | .inl st =>
            let st := { st with flags := flagsSet st.flags "loot_taken" (.bool true) }
            let st := if lootGameOver room then { st with game_over := true } else st
            let fallback := s!"You work the lock free (roll {roll} -> {total})."
            let msg := match (room.loot_config.getD {}).success_msg with
              | some m => if m = "" then fallback else formatRollTotal m roll total
              | none => fallback
            some (some msg, st, supply)
        else
          let st := { st with flags := flagsSet st.flags "loot_failed" (.bool true) }
          let fallback := s!"Your tools slip (roll {roll} -> {total}). The lock resists for now."
          let msg := match (room.loot_config.getD {}).fail_msg with
            | some m => if m = "" then fallback else formatRollTotal m roll total
            | none => fallback
          some (some msg, st, supply)
  else if action = "leave" ∨ action = "move" ∨ action = "continue" ∨ action = "go" then
    some (some "There's nowhere left to go but the chest.", st, supply)
  else
    some (none, st, supply)

/-! ## Inventory operation sequences

The inventory is touched by: direct adds (`add_item_to_inventory`, used by
the loot room and corpse looting), equip, unequip, and `use_item`.  A
sequence of such operations, each applied to the state the previous one
returned (an operation that fails, or runs out of die results, leaves the
state unchanged — exactly as the source returns the untouched state). -/

/-- One inventory operation, with its inputs. -/
inductive InvOp where
  | add (item : Item)
  | lootAdd (itemId : String)
  | equip (query : String)
  | unequip (slot : String)
  | use (query : String) (target : Option String) (supply : List Int)
deriving Repr

/-- Apply one inventory operation, keeping the state it returns. -/
def applyInvOp (camp : CampaignData) (st : GameState) : InvOp → GameState
  | .add item => (add_item_to_inventory st item).2.2
  | .lootAdd itemId => (add_item_to_inventory st (item_from_id camp itemId)).2.2
  | .equip query => (equip_item st query).2.2
  | .unequip slot => (unequip_item st slot).2.2
  | .use query target supply =>
    match use_item st query target supply with
    | some (_, st', _) => st'
    | none => st

/-- Apply a sequence of inventory operations, left to right. -/
def applyInvOps (camp : CampaignData) (ops : List InvOp) (st : GameState) : GameState :=
  ops.foldl (applyInvOp camp) st

/-! ## The spec's reading of XP granting (for the refinement claim)

`grantXpSpec` is written from the specification's words, on the player
record alone: "Granting XP adds to the total and then repeatedly applies
level-ups while current level < table length and accumulated XP ≥ the
threshold for the next level.  Each level-up: increments level; adds the
class's HP-per-level to both current and max HP; every second level adds
+1 attack bonus; casters refill to a new max mana (+2) immediately." -/

/-- One level-up as the spec words it. -/
def levelUpSpecStep (profile : ClassProfile) (p : Character) : Character :=
  let p := { p with
    level := p.level + 1,
    hp := p.hp + profile.hp_per_level,
    max_hp := p.max_hp + profile.hp_per_level }
  let p := if p.level % 2 = 0 then { p with attack_bonus := p.attack_bonus + 1 } else p
  if is_caster p.cls then { p with max_mana := p.max_mana + 2, mana := p.max_mana + 2 }
  else p

theorem levelUpSpecStep_level (profile : ClassProfile) (p : Character) :
    (levelUpSpecStep profile p).level = p.level + 1 := by
  simp only [levelUpSpecStep]
  split <;> split <;> rfl

/-- The spec's level-up loop: count the level-ups fired while the level is
below the table length and the XP total reaches the next level's threshold
(`XP_TABLE[level]`, 0-indexed). -/
def grantXpSpecLoop (p : Character) : Option (Nat × Character) :=
  if h : p.level < XP_TABLE.length ∧ XP_TABLE.getD p.level 0 ≤ p.xp then
    match get_class_profile p.cls with
    | none => none
    | some profile =>
      match grantXpSpecLoop (levelUpSpecStep profile p) with
      | none => none
      | some (n, q) => some (n + 1, q)
  else some (0, p)
termination_by XP_TABLE.length + 1 - p.level
decreasing_by
  rw [levelUpSpecStep_level]
  omega

/-- The spec's `grant_xp`: add the (positive) amount, then loop. -/
def grantXpSpec (p : Character) (amount : Int) : Option (Nat × Character) :=
  if amount ≤ 0 then some (0, p)
  else grantXpSpecLoop { p with xp := p.xp + amount }

/-! ## Concrete fixtures (campaign-shaped data for witnesses and
counterexamples; field values follow the `ruined_watchtower` /
`lost_crypt` content) -/

/-- A healing potion (`healing_potion`). -/
def fxPotion : Item :=
  { id := "healing_potion", name := "Healing Potion", kind := "potion",
    effect := some { type := "heal", dice := "1d6+2" } }

/-- Chest armor with +2 AC (`chain_shirt`). -/
def fxMail : Item :=
  { id := "chain_shirt", name := "Chain Shirt", kind := "armor", slot := "chest",
    effect := some { type := "ac", bonus := 2 } }

/-- Heavier chest armor with +3 AC. -/
def fxPlate : Item :=
  { id := "plate_coat", name := "Plate Coat", kind := "armor", slot := "chest",
    effect := some { type := "ac", bonus := 3 } }

/-- Head armor with +1 AC (`leather_cap`). -/
def fxCap : Item :=
  { id := "leather_cap", name := "Leather Cap", kind := "armor", slot := "head",
    effect := some { type := "ac", bonus := 1 } }

/-- A limit-counted quest-kind win item (for the loot room). -/
def fxAmulet : Item :=
  { id := "amulet", name := "Ancient Amulet", kind := "quest", counts_toward_limit := true }

/-- An armor item marked as not counting toward the limit. -/
def fxFreeCap : Item :=
  { id := "free_cap", name := "Free Cap", kind := "armor", slot := "chest",
    effect := some { type := "ac", bonus := 1 }, counts_toward_limit := false }

/-- A level-1 Fighter. -/
def fxFighter : Character :=
  { name := "Hero", cls := "Fighter", stats := { DEX := 1, INT := 2 }, hp := 10, max_hp := 12,
    ac := 15, base_ac := 15, attack_bonus := 3, damage := "1d8+1", xp := 0, level := 1 }

/-- A Cleric who has learned the damage spell Sacred Flame but has 1 mana. -/
def fxCleric : Character :=
  { name := "Hero", cls := "Cleric", stats := { DEX := 1, INT := 2 }, hp := 10, max_hp := 12,
    ac := 14, base_ac := 14, mana := 1, max_mana := 6, attack_bonus := 2, damage := "1d6+1",
    learned_spells := ["Cure Wounds", "Sacred Flame"] }

/-- A Wizard with 1 mana (below Spark's cost of 2). -/
def fxWizard : Character :=
  { name := "Hero", cls := "Wizard", stats := { DEX := 1, INT := 2 }, hp := 8, max_hp := 8,
    ac := 12, base_ac := 12, mana := 1, max_mana := 6, attack_bonus := 1, damage := "1d4+1",
    learned_spells := ["Spark"] }

/-- The companion. -/
def fxMara : Companion :=
  { name := "Mara", hp := 8, max_hp := 9, ac := 13, attack_bonus := 2, damage := "1d6" }

/-- A live skeleton. -/
def fxSkel : Enemy :=
  { name := "Skeleton", hp := 5, max_hp := 6, ac := 10, attack_bonus := 1, damage := "1d6" }

/-- The skeleton's mob template (50 XP, default AI). -/
def fxSkelProfile : MobProfile :=
  { name := "Skeleton", hp := 6, ac := 10, attack_bonus := 1, damage := "1d6", xp := 50 }

/-- A two-entry content registry. -/
def fxCamp : CampaignData :=
  { items := fun i =>
      if i = "amulet" then some fxAmulet
      else if i = "healing_potion" then some fxPotion
      else none,
    mobs := fun n => if n = "Skeleton" then some fxSkelProfile else none }

/-- The loot room: DEX check DC 13, win item `amulet`, campaign-ending
(`game_over` defaulted true). -/
def fxLootRoom : Room :=
  { room_id := "vault", kind := "loot",
    loot_config := some { stat := some "DEX", dc := some 13, win_item_id := some "amulet" } }

/-! # Theorems for the claims -/

/-- C4: end-of-combat detection is idempotent — on any state whose active
enemy list is already empty it returns no message and the very same state
(no XP, no corpse records, no flag changes). -/
theorem C4_end_combat_idempotent (camp : CampaignData) (st : GameState)
    (h : st.enemies = []) : end_combat_if_needed camp st = some (none, st) := by
  simp [end_combat_if_needed, h]

/-- C4 witness: the theorem applied to a concrete cleared-combat state. -/
theorem C4_end_combat_idempotent_witness :
    end_combat_if_needed fxCamp { player := fxFighter, companions := [fxMara] } =
      some (none, { player := fxFighter, companions := [fxMara] }) :=
  C4_end_combat_idempotent fxCamp { player := fxFighter, companions := [fxMara] } rfl

/-- Shared step for C9: with a living companion and any AI string other
than `focus_player`/`focus_companion`, the chosen side is the strict-HP
minimum, the player on ties. -/
theorem enemyChooseTarget_weakest (camp : CampaignData) (st : GameState) (e : Enemy)
    (prof : MobProfile) (hm : get_mob_profile camp e.name = some prof)
    (hai : prof.ai = "focus_weakest") (hc : 0 < st.companion.hp) :
    enemyChooseTarget camp st e =
      some (if st.companion.hp < st.player.hp then "companion" else "player") := by
  simp only [enemyChooseTarget, hm, hai]
  simp only [show ("focus_weakest" = "focus_player") = False by simp,
    show ("focus_weakest" = "focus_companion") = False by simp, if_false]
  simp [pick_target_by_hp, hc, apply_ite (f := Prod.fst (α := String) (β := Int))]

/-- Shared step for C9: an attack resolved against the player never touches
the companion list. -/
theorem enemyAttackStep_player_keeps_companions (st : GameState) (e : Enemy)
    (supply : List Int) (res : String × GameState × List Int)
    (h : enemyAttackStep st e "player" supply = some res) :
    res.2.1.companions = st.companions := by
  simp only [enemyAttackStep, if_pos rfl, eq_self_iff_true, if_true] at h
  cases hroll : _attack_roll e.attack_bonus st.player.ac st.player_defending supply with
  | none => simp [hroll] at h
  | some r =>
    obtain ⟨⟨hit, roll, total⟩, rest⟩ := r
    simp only [hroll] at h
    by_cases hhit : hit = true
    · subst hhit
      simp only [if_pos rfl, eq_self_iff_true, if_true] at h
      cases hdmg : _apply_damage st.player.hp e.damage 0 rest with
      | none => simp [hdmg] at h
      | some d =>
        obtain ⟨⟨new_hp, detail⟩, rest'⟩ := d
        simp only [hdmg, Option.some.injEq] at h
        rw [← h]
    · simp only [if_neg (by simp [hhit] : ¬ (hit = true)), Option.some.injEq] at h
      rw [← h]

/-- C9: an enemy with the default (`focus_weakest`) AI policy facing a
living companion targets the player when the two HP values are tied (the
companion only on strictly lower HP); consequently a lone such enemy's
whole action leaves the companion untouched on an HP tie. -/
theorem C9_tie_breaks_for_player :
    (∀ camp st e prof,
      get_mob_profile camp e.name = some prof →
      prof.ai = "focus_weakest" →
      0 < st.companion.hp →
      (st.player.hp = st.companion.hp → enemyChooseTarget camp st e = some "player") ∧
      (st.companion.hp < st.player.hp → enemyChooseTarget camp st e = some "companion")) ∧
    (∀ camp st e prof supply out,
      st.enemies = [e] →
      get_mob_profile camp e.name = some prof →
      prof.ai = "focus_weakest" →
      0 < st.companion.hp →
      st.player.hp = st.companion.hp →
      apply_enemy_action camp st supply = some out →
      out.2.1.companions = st.companions) := by
  constructor
  · intro camp st e prof hm hai hc
    constructor
    · intro htie
      rw [enemyChooseTarget_weakest camp st e prof hm hai hc]
      simp [htie]
    · intro hlt
      rw [enemyChooseTarget_weakest camp st e prof hm hai hc]
      simp [hlt]
  · intro camp st e prof supply out hone hm hai hc htie hrun
    have hchoose : enemyChooseTarget camp st e = some "player" := by
      rw [enemyChooseTarget_weakest camp st e prof hm hai hc]
      simp [htie]
    simp only [apply_enemy_action, hone] at hrun
    by_cases halive : e.hp > 0
    · have hd : decide (e.hp > 0) = true := by simpa using halive
      simp only [List.filter, hd] at hrun
      simp only [List.isEmpty, enemyLoop, hchoose] at hrun
      cases hstep : enemyAttackStep st e "player" supply with
      | none => simp [hstep, enemyLoop] at hrun
      | some res =>
        have hst1 := enemyAttackStep_player_keeps_companions st e supply res hstep
        obtain ⟨msg, st1, supply1⟩ := res
        simp only [hstep, enemyLoop, Bool.false_eq_true, if_false,
          Option.some.injEq] at hrun
        rw [← hrun]
        exact hst1
    · have hd : decide (e.hp > 0) = false := by simpa using halive
      simp only [List.filter, hd] at hrun
      simp only [List.isEmpty, if_pos rfl, eq_self_iff_true, if_true,
        Option.some.injEq] at hrun
      rw [← hrun]

/-- Combat state with an HP tie: player 8, companion 8. -/
def fxStTie : GameState :=
  { player := { fxFighter with hp := 8 }, companions := [fxMara], enemies := [fxSkel],
    campaign_id := "c", room_id := "barracks", in_combat := true }

/-- Combat state with the companion strictly lower: player 9, companion 8. -/
def fxStLow : GameState :=
  { fxStTie with player := { fxFighter with hp := 9 } }

/-- C9 witness: the theorem applied at a tied state, a companion-lower
state, and one full enemy action at the tied state. -/
theorem C9_tie_breaks_for_player_witness :
    enemyChooseTarget fxCamp fxStTie fxSkel = some "player" ∧
    enemyChooseTarget fxCamp fxStLow fxSkel = some "companion" ∧
    ((apply_enemy_action fxCamp fxStTie [20, 3]).getD ([], fxStTie, [])).2.1.companions =
      fxStTie.companions := by
  refine ⟨?_, ?_, ?_⟩
  · exact (C9_tie_breaks_for_player.1 fxCamp fxStTie fxSkel fxSkelProfile rfl rfl
      (by decide)).1 (by decide)
  · exact (C9_tie_breaks_for_player.1 fxCamp fxStLow fxSkel fxSkelProfile rfl rfl
      (by decide)).2 (by decide)
  · exact C9_tie_breaks_for_player.2 fxCamp fxStTie fxSkel fxSkelProfile [20, 3] _
      rfl rfl rfl (by decide) (by decide) rfl

/-- C10 (amended): with the limit-counted inventory exactly full, equipping
an armor item into a slot whose occupant counts toward the limit fails with
the inventory-full message and returns the state unchanged — the capacity
check counts the item being equipped while it is still in the inventory. -/
theorem C10_equip_swap_full_fails (st : GameState) (query : String) (item cur : Item)
    (hres : equip_resolve st (strTrim query) = .inl item)
    (hslot : isSlot (strLower item.slot) = true)
    (hcur : st.equipment.get (strLower item.slot) = some (some cur))
    (hcnt : cur.counts_toward_limit = true)
    (hfull : inventory_used st = st.inventory_limit) :
    equip_item st query = (false, "Inventory is full; unequip something first.", st) := by
  simp [equip_item, hres, hslot, hcur, can_add_item, item_counts_toward_limit, hcnt, hfull]

/-- State for the C10 witness: limit 1, one counting armor in the
inventory, a counting occupant in its slot. -/
def fxStSwapFull : GameState :=
  { player := fxFighter, companions := [fxMara], campaign_id := "c", room_id := "r",
    inventory := [fxPlate], inventory_limit := 1, equipment := { chest := some fxMail } }

/-- C10 witness: the amended theorem applied to the concrete full state. -/
theorem C10_equip_swap_full_fails_witness :
    equip_item fxStSwapFull "1" =
      (false, "Inventory is full; unequip something first.", fxStSwapFull) :=
  C10_equip_swap_full_fails fxStSwapFull "1" fxPlate fxMail (by decide) (by decide)
    (by decide) (by decide) (by decide)

/-- State refuting C10 as stated: the occupant does not count toward the
limit, so the swap succeeds although the counted inventory is full. -/
def fxStSwapFree : GameState :=
  { fxStSwapFull with equipment := { chest := some fxFreeCap } }

/-- C10 counterexample: with the counted inventory exactly at the limit and
the chest slot occupied, the claim says this equip must fail; on an
occupant that does not count toward the limit it succeeds. -/
theorem C10_counterexample :
    inventory_used fxStSwapFree = fxStSwapFree.inventory_limit ∧
    (fxStSwapFree.equipment.get "chest").join = some fxFreeCap ∧
    (fxStSwapFree.inventory.getD 0 {}).kind = "armor" ∧
    (equip_item fxStSwapFree "1").1 = true := by
  refine ⟨by decide, by decide, by decide, ?_⟩
  decide

/-- C2 (amended): in a loot room with the chest not yet taken, when the
configured stat check succeeds but the win item cannot be added, the action
returns the degraded rearrange-and-retry message and leaves the state
entirely unchanged — the loot-taken flag is not set and the game-over flag
is not touched, so the attempt remains retryable. -/
theorem C2_loot_full_keeps_chest (camp : CampaignData) (room : Room) (st : GameState)
    (action : String) (roll : Int) (rest : List Int) (wid : String)
    (hact : action = "search" ∨ action = "open" ∨ action = "loot" ∨ action = "inspect")
    (htaken : truthy (flagsGet st.flags "loot_taken") = false)
    (hwin : lootWinItemId room = some wid)
    (hfull : can_add_item st (item_from_id camp wid) = false)
    (hsucc : lootDc room ≤ roll + st.player.stats.get (lootStatKey room)) :
    _handle_loot_room camp st room action (roll :: rest) =
      some (some (s!"You force the lock (roll {roll} -> {roll + st.player.stats.get (lootStatKey room)}) but " ++
          "inventory is full." ++ " You can rearrange your gear and try again."),
        st, rest) := by
  have hact' : (action = "search" ∨ action = "open" ∨ action = "loot" ∨
      action = "inspect") = True := by simp [hact]
  simp only [_handle_loot_room, hact', if_true, htaken, Bool.false_eq_true, if_false]
  simp only [check, roll_die]
  have hdec : decide (roll + st.player.stats.get (lootStatKey room) ≥ lootDc room) = true := by
    simpa using hsucc
  simp only [hdec, if_pos rfl, eq_self_iff_true, if_true, hwin]
  simp only [add_item_to_inventory, hfull, Bool.not_eq_true]
  simp [show strLower "Inventory is full." = "inventory is full." from rfl]

/-- Loot-room state whose single counted inventory slot is already full. -/
def fxStLootFull : GameState :=
  { player := fxFighter, companions := [fxMara], campaign_id := "c", room_id := "vault",
    inventory := [fxPotion], inventory_limit := 1 }

/-- C2 witness: the amended theorem applied to the concrete full-inventory
loot state (DEX bonus 1, roll 20 against DC 13). -/
theorem C2_loot_full_keeps_chest_witness :
    _handle_loot_room fxCamp fxStLootFull fxLootRoom "open" [20] =
      some (some (s!"You force the lock (roll {(20 : Int)} -> {(21 : Int)}) but " ++
          "inventory is full." ++ " You can rearrange your gear and try again."),
        fxStLootFull, []) :=
  C2_loot_full_keeps_chest fxCamp fxLootRoom fxStLootFull "open" 20 [] "amulet"
    (by decide) (by decide) (by decide) (by decide) (by decide)

/-- C2 counterexample: at this success-with-full-inventory input the claim
says the loot is marked taken and (the room being campaign-ending) the
game-over flag is set; the code returns the state unchanged — no
`loot_taken` flag, `game_over` still false. -/
theorem C2_counterexample :
    truthy (flagsGet fxStLootFull.flags "loot_taken") = false ∧
    lootDc fxLootRoom ≤ 20 + fxStLootFull.player.stats.get (lootStatKey fxLootRoom) ∧
    can_add_item fxStLootFull (item_from_id fxCamp "amulet") = false ∧
    lootGameOver fxLootRoom = true ∧
    _handle_loot_room fxCamp fxStLootFull fxLootRoom "open" [20] =
      some (some "You force the lock (roll 20 -> 21) but inventory is full. You can rearrange your gear and try again.",
        fxStLootFull, []) ∧
    flagsGet fxStLootFull.flags "loot_taken" = none ∧
    fxStLootFull.game_over = false := by
  decide

/-- Shared step for C3: with a living enemy and no explicit target,
`_select_enemy` succeeds. -/
theorem _select_enemy_default_some (st : GameState)
    (halive : ∃ e ∈ st.enemies, e.hp > 0) :
    ∃ i, _select_enemy st none = (some i, none) := by
  obtain ⟨e, he, hhp⟩ := halive
  have hne : st.enemies.isEmpty = false := by
    cases h : st.enemies with
    | nil => rw [h] at he; simp at he
    | cons a l => simp [List.isEmpty]
  obtain ⟨i, hi, hgeti⟩ := List.mem_iff_getElem.mp he
  have hmem : i ∈ aliveIndices st.enemies := by
    simp only [aliveIndices, List.mem_filter, List.mem_range]
    refine ⟨hi, ?_⟩
    rw [List.getD_eq_getElem st.enemies defaultEnemy hi, hgeti]
    simpa using hhp
  unfold _select_enemy
  rw [hne]
  cases halv : aliveIndices st.enemies with
  | nil => rw [halv] at hmem; simp at hmem
  | cons j js => simp

/-- C3 (amended): a Wizard (the only class `special` routes to
spellcasting) who knows a damage spell but lacks its mana cost gets the
out-of-mana message with no attack roll (the die supply is returned
untouched), and the only state change is the start-of-action reset of the
player's one-round defend stance; a Cleric — also a caster — is not routed
here and performs a normal attack instead (see the counterexample). -/
theorem C3_wizard_out_of_mana (st : GameState) (supply : List Int) (spell dexpr : String)
    (cost : Int)
    (hcls : st.player.cls = "Wizard")
    (hspell : get_best_damage_spell st.player.learned_spells = some spell)
    (hdmg : SPELL_DAMAGE spell = some (dexpr, cost))
    (hmana : st.player.mana < cost)
    (halive : ∃ e ∈ st.enemies, e.hp > 0) :
    apply_player_action st "special" none supply =
      some ("You are out of mana.", { st with player_defending := false }, supply) := by
  have hsel := _select_enemy_default_some { st with player_defending := false }
    (by simpa using halive)
  obtain ⟨i, hi⟩ := hsel
  have hlow : strLower "special" = "special" := rfl
  simp only [apply_player_action, hlow]
  simp only [show ("special" = "defend") = False by simp, if_false, hi]
  simp only [eq_self_iff_true, if_true, hcls, hspell, hdmg]
  have hlt : (st.player.mana < cost) = True := by simp [hmana]
  simp [hlt]

/-- Combat state for C3's witness: the Wizard with 1 mana facing the
skeleton. -/
def fxStWizard : GameState :=
  { player := fxWizard, companions := [fxMara], enemies := [fxSkel],
    campaign_id := "c", room_id := "barracks", in_combat := true }

/-- C3 witness: the amended theorem applied to the concrete out-of-mana
Wizard state (Spark costs 2, mana is 1). -/
theorem C3_wizard_out_of_mana_witness :
    apply_player_action fxStWizard "special" none [20, 3] =
      some ("You are out of mana.", { fxStWizard with player_defending := false }, [20, 3]) :=
  C3_wizard_out_of_mana fxStWizard [20, 3] "Spark" "1d4" 2 rfl rfl rfl (by decide)
    ⟨fxSkel, by decide⟩

/-- Combat state for C3's counterexample: a Cleric (a caster class) who
knows the damage spell Sacred Flame, has 1 mana (below its cost of 2), one
living enemy, and an active defend stance. -/
def fxStCleric : GameState :=
  { player := fxCleric, companions := [fxMara], enemies := [fxSkel],
    campaign_id := "c", room_id := "barracks", in_combat := true,
    player_defending := true }

/-- The state the Cleric's `special` actually produces: defend stance
cleared, skeleton damaged. -/
def fxStClericAfter : GameState :=
  { fxStCleric with player_defending := false, enemies := [{ fxSkel with hp := 1 }] }

/-- C3 counterexample: at this caster-out-of-mana input the claim says
`special` returns the out-of-mana message and changes nothing; the code
performs a normal attack (roll 20 hits, the skeleton drops from 5 HP to 1)
and clears the defend stance. -/
theorem C3_counterexample :
    is_caster fxStCleric.player.cls = true ∧
    get_best_damage_spell fxStCleric.player.learned_spells = some "Sacred Flame" ∧
    SPELL_DAMAGE "Sacred Flame" = some ("1d6", 2) ∧
    fxStCleric.player.mana < 2 ∧
    (∃ e ∈ fxStCleric.enemies, e.hp > 0) ∧
    apply_player_action fxStCleric "special" none [20, 3] =
      some ("Hit Skeleton (roll 20 -> 22) for 4 (3+1) damage.", fxStClericAfter, []) ∧
    "Hit Skeleton (roll 20 -> 22) for 4 (3+1) damage." ≠ "You are out of mana." ∧
    fxStClericAfter ≠ fxStCleric := by
  refine ⟨by decide, by decide, by decide, by decide, ⟨fxSkel, by decide⟩, by decide,
    by decide, by decide⟩

/-- C1: HP stays within `[0, max_hp]`.  Damage: every attack resolution
(player, companion, enemy) writes the target's HP through `_apply_damage`,
whose result is never negative, and never exceeds the starting HP — hence
stays ≤ max_hp — whenever the evaluated damage (dice total + flat bonus) is
nonnegative, which holds for every damage expression the content defines.
Healing: a successful `use_item` keeps both the player's and the
companion's HP within bounds for a nonnegative rolled heal amount. -/
theorem C1_hp_bounds :
    (∀ hp maxhp bonus : Int, ∀ expr : String, ∀ supply : List Int,
      ∀ hp' : Int, ∀ detail : String, ∀ rest : List Int,
      _apply_damage hp expr bonus supply = some ((hp', detail), rest) →
      0 ≤ hp' ∧
      (0 ≤ hp → hp ≤ maxhp →
        (∀ d det r0, roll_dice expr supply = some (d, det, r0) → 0 ≤ d + bonus) →
        hp' ≤ maxhp)) ∧
    (∀ st : GameState, ∀ query : String, ∀ target : Option String, ∀ supply : List Int,
      ∀ item : Item, ∀ amt : Int, ∀ det : String, ∀ rest1 : List Int,
      ∀ res : (Bool × String) × GameState × List Int,
      find_item st query (some "potion") = (some item, none) →
      roll_dice (item.effect.getD {}).dice supply = some (amt, det, rest1) →
      0 ≤ amt →
      0 ≤ st.player.hp → st.player.hp ≤ st.player.max_hp →
      0 ≤ st.companion.hp → st.companion.hp ≤ st.companion.max_hp →
      use_item st query target supply = some res →
      (0 ≤ res.2.1.player.hp ∧ res.2.1.player.hp ≤ res.2.1.player.max_hp ∧
       0 ≤ res.2.1.companion.hp ∧ res.2.1.companion.hp ≤ res.2.1.companion.max_hp)) := by
  constructor
  · intro hp maxhp bonus expr supply hp' detail rest h
    cases hroll : roll_dice expr supply with
    | none => simp [_apply_damage, hroll] at h
    | some trip =>
      obtain ⟨d0, det0, r0⟩ := trip
      simp only [_apply_damage, hroll, Option.some.injEq, Prod.mk.injEq] at h
      obtain ⟨⟨h1, -⟩, -⟩ := h
      constructor
      · omega
      · intro hl hu hnn
        have hd := hnn d0 det0 r0 rfl
        omega
  · intro st query target supply item amt det rest1 res hfind hroll hamt hpl hpu hcl hcu hrun
    simp only [use_item, hfind] at hrun
    by_cases hkind : strLower item.kind ≠ "potion"
    · rw [if_pos hkind] at hrun
      obtain rfl := Option.some.inj hrun
      exact ⟨hpl, hpu, hcl, hcu⟩
    · rw [if_neg hkind] at hrun
      by_cases heff : (item.effect.getD {}).type ≠ "heal"
      · rw [if_pos heff] at hrun
        obtain rfl := Option.some.inj hrun
        exact ⟨hpl, hpu, hcl, hcu⟩
      · rw [if_neg heff] at hrun
        rw [hroll] at hrun
        set side := (if strLower (strTrim (target.getD "")) = "mara" ∨
              strLower (strTrim (target.getD "")) = "companion" ∨
              strLower (strTrim (target.getD "")) = "her" then HealSide.companion
            else if strLower (strTrim (target.getD "")) = "me" ∨
              strLower (strTrim (target.getD "")) = "self" ∨
              strLower (strTrim (target.getD "")) = "player" ∨
              strLower (strTrim (target.getD "")) = "you" then HealSide.player
            else if st.companion.hp > 0 ∧
              st.companion.hp * max 1 st.player.max_hp <
                st.player.hp * max 1 st.companion.max_hp then HealSide.companion
            else HealSide.player) with hside
        cases hs : side with
        | player =>
          rw [hs] at hrun
          simp only [Option.some.injEq] at hrun
          rw [← hrun]
          refine ⟨?_, ?_, hcl, hcu⟩ <;> simp <;> omega
        | companion =>
          rw [hs] at hrun
          simp only [Option.some.injEq] at hrun
          rw [← hrun]
          refine ⟨hpl, hpu, ?_, ?_⟩ <;>
            · simp only [GameState.companion] at *
              cases hcomp : st.companions with
              | nil => simp [List.set, defaultCompanion]
              | cons c cs =>
                rw [hcomp] at hcl hcu
                simp only [List.headD_cons] at hcl hcu
                simp [List.set] <;> omega

/-- Exploration state holding one healing potion, player at 10/12 HP. -/
def fxStPotion : GameState :=
  { player := fxFighter, companions := [fxMara], campaign_id := "c", room_id := "r",
    inventory := [fxPotion] }

/-- C1 witness: the spec's own example (enemy at 12 HP, `1d8+1` rolling 4,
bonus 0 gives 7, inside `[0, 12]`), and a potion use at 10/12 HP healing to
exactly 12 with both parties inside bounds. -/
theorem C1_hp_bounds_witness :
    (_apply_damage 12 "1d8+1" 0 [4] = some ((7, "5 (4+1)"), []) ∧ 0 ≤ (7 : Int) ∧ (7 : Int) ≤ 12) ∧
    (0 ≤ ((use_item fxStPotion "potion" none [4]).getD
        ((false, ""), fxStPotion, [])).2.1.player.hp ∧
      ((use_item fxStPotion "potion" none [4]).getD
        ((false, ""), fxStPotion, [])).2.1.player.hp ≤
      ((use_item fxStPotion "potion" none [4]).getD
        ((false, ""), fxStPotion, [])).2.1.player.max_hp) := by
  constructor
  · have h := C1_hp_bounds.1 12 12 0 "1d8+1" [4] 7 "5 (4+1)" [] (by decide)
    refine ⟨by decide, h.1, h.2 (by norm_num) (by norm_num) ?_⟩
    intro d det r0 hr
    have : roll_dice "1d8+1" [4] = some (5, "4+1", []) := by decide
    rw [this] at hr
    simp only [Option.some.injEq, Prod.mk.injEq] at hr
    omega
  · have h := C1_hp_bounds.2 fxStPotion "potion" none [4] fxPotion 6 "4+2" []
      ((use_item fxStPotion "potion" none [4]).getD ((false, ""), fxStPotion, []))
      (by decide) (by decide) (by decide) (by decide) (by decide) (by decide) (by decide)
      (by decide)
    exact ⟨h.1, h.2.1⟩

/-! ## Equipment-slot lemmas (shared by C5 and C6) -/

theorem isSlot_cases (s : String) (h : isSlot s = true) :
    s = "head" ∨ s = "arms" ∨ s = "hands" ∨ s = "chest" ∨ s = "legs" ∨ s = "feet" := by
  unfold isSlot slotNames at h
  have hmem := List.mem_of_elem_eq_true h
  simpa using hmem

theorem isSlot_neg (s : String) (h : isSlot s = false) :
    ¬(s = "head") ∧ ¬(s = "arms") ∧ ¬(s = "hands") ∧ ¬(s = "chest") ∧
    ¬(s = "legs") ∧ ¬(s = "feet") := by
  refine ⟨?_, ?_, ?_, ?_, ?_, ?_⟩ <;> rintro rfl <;> exact absurd h (by decide)

theorem equip_set_not_slot (e : Equipment) (s : String) (v : Option Item)
    (h : isSlot s = false) : e.set s v = e := by
  obtain ⟨h1, h2, h3, h4, h5, h6⟩ := isSlot_neg s h
  simp [Equipment.set, h1, h2, h3, h4, h5, h6]

theorem equip_get_set_same (e : Equipment) (s : String) (hs : isSlot s = true)
    (v : Option Item) : (e.set s v).get s = some v := by
  rcases isSlot_cases s hs with rfl | rfl | rfl | rfl | rfl | rfl <;>
    simp [Equipment.get, Equipment.set]

theorem equip_get_set_ne (e : Equipment) (a b : String) (hab : b ≠ a) (v : Option Item) :
    (e.set a v).get b = e.get b := by
  by_cases ha : isSlot a
  · rcases isSlot_cases a ha with rfl | rfl | rfl | rfl | rfl | rfl <;>
      simp [Equipment.get, Equipment.set, hab]
  · rw [equip_set_not_slot e a v (by simpa using ha)]

theorem equip_set_set_same (e : Equipment) (s : String) (v w : Option Item) :
    (e.set s v).set s w = e.set s w := by
  by_cases hs : isSlot s
  · rcases isSlot_cases s hs with rfl | rfl | rfl | rfl | rfl | rfl <;>
      simp [Equipment.set]
  · rw [equip_set_not_slot e s v (by simpa using hs)]

theorem equip_set_none_of_get_none (e : Equipment) (s : String)
    (h : e.get s = some none) : e.set s none = e := by
  by_cases hs : isSlot s
  · rcases isSlot_cases s hs with rfl | rfl | rfl | rfl | rfl | rfl <;>
      (cases e; simp_all [Equipment.get, Equipment.set])
  · exact equip_set_not_slot e s none (by simpa using hs)

/-- A successful `unequip_item` in closed form: the slot held `cur`; the
result moves `cur` to the inventory, empties the slot and re-syncs AC. -/
theorem unequip_success_shape (st : GameState) (slot m : String) (st' : GameState)
    (h : unequip_item st slot = (true, m, st')) :
    isSlot (strLower (strTrim slot)) = true ∧
    ∃ cur, (st.equipment.get (strLower (strTrim slot))).join = some cur ∧
      can_add_item st cur = true ∧
      st' = sync_player_ac { st with
        inventory := st.inventory ++ [cur],
        equipment := st.equipment.set (strLower (strTrim slot)) none } := by
  simp only [unequip_item] at h
  by_cases hs : isSlot (strLower (strTrim slot))
  · rw [if_neg (by simpa using hs)] at h
    cases hocc : (st.equipment.get (strLower (strTrim slot))).join with
    | none =>
      simp only [hocc, Prod.mk.injEq] at h
      exact (Bool.false_ne_true h.1).elim
    | some cur =>
      simp only [hocc] at h
      by_cases hadd : can_add_item st cur
      · rw [if_neg (by simpa using hadd)] at h
        simp only [Prod.mk.injEq] at h
        exact ⟨hs, cur, rfl, hadd, h.2.2.symm⟩
      · rw [if_pos (by simpa using hadd)] at h
        simp at h
  · rw [if_pos (by simpa using hs)] at h
    simp at h

/-- A successful `equip_item` in closed form: the resolved armor goes into
its slot, any occupant is first moved into the inventory, and AC re-syncs. -/
theorem equip_success_shape (st : GameState) (q m : String) (st' : GameState)
    (h : equip_item st q = (true, m, st')) :
    ∃ item, equip_resolve st (strTrim q) = .inl item ∧
      isSlot (strLower item.slot) = true ∧
      ((∃ cur, (st.equipment.get (strLower item.slot)).join = some cur ∧
          can_add_item st cur = true ∧
          st' = sync_player_ac { st with
            inventory := (st.inventory ++ [cur]).erase item,
            equipment := st.equipment.set (strLower item.slot) (some item) }) ∨
        ((st.equipment.get (strLower item.slot)).join = none ∧
          st' = sync_player_ac { st with
            inventory := st.inventory.erase item,
            equipment := st.equipment.set (strLower item.slot) (some item) })) := by
  simp only [equip_item] at h
  cases hres : equip_resolve st (strTrim q) with
  | inr err => simp only [hres, Prod.mk.injEq] at h; exact (Bool.false_ne_true h.1).elim
  | inl item =>
    simp only [hres] at h
    refine ⟨item, rfl, ?_⟩
    by_cases hs : isSlot (strLower item.slot)
    · rw [if_neg (by simpa using hs)] at h
      refine ⟨hs, ?_⟩
      cases hocc : (st.equipment.get (strLower item.slot)).join with
      | some cur =>
        simp only [hocc] at h
        by_cases hadd : can_add_item st cur
        · rw [if_neg (by simpa using hadd)] at h
          simp only [Prod.mk.injEq] at h
          exact Or.inl ⟨cur, rfl, hadd, h.2.2.symm⟩
        · rw [if_pos (by simpa using hadd)] at h
          simp at h
      | none =>
        simp only [hocc] at h
        simp only [Prod.mk.injEq] at h
        exact Or.inr ⟨rfl, h.2.2.symm⟩
    · rw [if_pos (by simpa using hs)] at h
      simp at h

/-- AC after a sync is in sync. -/
theorem sync_player_ac_synced (st : GameState) :
    (sync_player_ac st).player.ac =
      (sync_player_ac st).player.base_ac + equipment_ac_bonus (sync_player_ac st) := rfl

theorem sync_ac_eq (st : GameState) :
    (sync_player_ac st).player.ac = st.player.base_ac + equipment_ac_bonus st := rfl

theorem equipment_ac_bonus_congr (s1 s2 : GameState) (h : s1.equipment = s2.equipment) :
    equipment_ac_bonus s1 = equipment_ac_bonus s2 := by
  unfold equipment_ac_bonus
  rw [h]

/-- C5 (amended): equipping an armor item into a previously EMPTY slot and
then unequipping that slot restores the effective AC (base AC + equipped
bonuses) to its pre-equip value; and after every successful equip or
unequip the stored AC equals base AC + the sum of the equipped items' AC
bonuses.  (Equipping over an occupant displaces it into the inventory, so
the plain round-trip of the claim fails there — see the counterexample.) -/
theorem C5_ac_round_trip :
    (∀ st : GameState, ∀ q m1 slot m2 : String, ∀ st1 st2 : GameState,
      equip_item st q = (true, m1, st1) →
      unequip_item st1 slot = (true, m2, st2) →
      st.equipment.get (strLower (strTrim slot)) = some none →
      st2.player.ac = st.player.base_ac + equipment_ac_bonus st) ∧
    (∀ st : GameState, ∀ q m : String, ∀ st' : GameState,
      equip_item st q = (true, m, st') →
      st'.player.ac = st'.player.base_ac + equipment_ac_bonus st') ∧
    (∀ st : GameState, ∀ slot m : String, ∀ st' : GameState,
      unequip_item st slot = (true, m, st') →
      st'.player.ac = st'.player.base_ac + equipment_ac_bonus st') := by
  refine ⟨?_, ?_, ?_⟩
  · intro st q m1 slot m2 st1 st2 heq hun hempty
    obtain ⟨item, hres, hslot, hcases⟩ := equip_success_shape st q m1 st1 heq
    obtain ⟨hsk, cur', hocc', hadd', hst2⟩ := unequip_success_shape st1 slot m2 st2 hun
    rcases hcases with ⟨cur, hocc, hadd, hst1⟩ | ⟨hocc, hst1⟩
    · by_cases hks : strLower (strTrim slot) = strLower item.slot
      · rw [hks] at hempty
        rw [hempty] at hocc
        simp at hocc
      · have heq1 : st1.equipment = st.equipment.set (strLower item.slot) (some item) := by
          rw [hst1]; rfl
        rw [heq1, equip_get_set_ne st.equipment _ _ hks, hempty] at hocc'
        simp at hocc'
    · have heq1 : st1.equipment = st.equipment.set (strLower item.slot) (some item) := by
        rw [hst1]; rfl
      by_cases hks : strLower (strTrim slot) = strLower item.slot
      · rw [hst2, sync_ac_eq]
        have hbase1 : st1.player.base_ac = st.player.base_ac := by rw [hst1]; rfl
        have hE : ({ st1 with
            inventory := st1.inventory ++ [cur'],
            equipment := st1.equipment.set (strLower (strTrim slot)) none } :
              GameState).equipment = st.equipment := by
          show st1.equipment.set (strLower (strTrim slot)) none = st.equipment
          rw [heq1, hks, equip_set_set_same]
          exact equip_set_none_of_get_none st.equipment _ (by rw [← hks]; exact hempty)
        rw [equipment_ac_bonus_congr _ st hE]
        have hbY : ({ st1 with
            inventory := st1.inventory ++ [cur'],
            equipment := st1.equipment.set (strLower (strTrim slot)) none } :
              GameState).player.base_ac = st1.player.base_ac := rfl
        rw [hbY, hbase1]
      · rw [heq1, equip_get_set_ne st.equipment _ _ hks, hempty] at hocc'
        simp at hocc'
  · intro st q m st' heq
    obtain ⟨item, -, -, hcases⟩ := equip_success_shape st q m st' heq
    rcases hcases with ⟨cur, -, -, hst'⟩ | ⟨-, hst'⟩ <;> subst hst' <;> exact sync_ac_eq _
  · intro st slot m st' hun
    obtain ⟨-, cur, -, -, hst'⟩ := unequip_success_shape st slot m st' hun
    subst hst'
    exact sync_ac_eq _

/-- Gear state with the chest slot empty and chest armor in the pack. -/
def fxStEquip : GameState :=
  { player := fxFighter, companions := [fxMara], campaign_id := "c", room_id := "r",
    inventory := [fxMail] }

/-- C5 witness: the amended theorem applied concretely — equip the Chain
Shirt into the empty chest slot (AC 15 → 17), unequip it (AC back to
15 = base + 0), with both intermediate states in sync. -/
theorem C5_ac_round_trip_witness :
    (unequip_item (equip_item fxStEquip "1").2.2 "chest").2.2.player.ac =
      fxStEquip.player.base_ac + equipment_ac_bonus fxStEquip ∧
    (equip_item fxStEquip "1").2.2.player.ac =
      (equip_item fxStEquip "1").2.2.player.base_ac +
        equipment_ac_bonus (equip_item fxStEquip "1").2.2 ∧
    (unequip_item (equip_item fxStEquip "1").2.2 "chest").2.2.player.ac =
      (unequip_item (equip_item fxStEquip "1").2.2 "chest").2.2.player.base_ac +
        equipment_ac_bonus (unequip_item (equip_item fxStEquip "1").2.2 "chest").2.2 := by
  refine ⟨?_, ?_, ?_⟩
  · exact C5_ac_round_trip.1 fxStEquip "1" "Equipped Chain Shirt to chest." "chest"
      "Removed Chain Shirt from chest." ((equip_item fxStEquip "1").2.2)
      ((unequip_item (equip_item fxStEquip "1").2.2 "chest").2.2)
      (by decide) (by decide) (by decide)
  · exact C5_ac_round_trip.2.1 fxStEquip "1" "Equipped Chain Shirt to chest."
      ((equip_item fxStEquip "1").2.2) (by decide)
  · exact C5_ac_round_trip.2.2 (equip_item fxStEquip "1").2.2 "chest"
      "Removed Chain Shirt from chest."
      ((unequip_item (equip_item fxStEquip "1").2.2 "chest").2.2) (by decide)

/-- Gear state for the C5 counterexample: the chest slot already holds the
+2 Chain Shirt (AC 12 = base 10 + 2, in sync), and the +3 Plate Coat is in
the pack. -/
def fxStRound : GameState :=
  { player := { fxFighter with ac := 12, base_ac := 10 }, companions := [fxMara],
    campaign_id := "c", room_id := "r", inventory := [fxPlate],
    equipment := { chest := some fxMail } }

/-- C5 counterexample: equipping the Plate Coat over the occupied chest slot
succeeds (displacing the Chain Shirt into the pack), and unequipping the
chest then leaves AC 10 ≠ the pre-equip effective AC 12 — the claim's
unrestricted round-trip fails on an occupied slot. -/
theorem C5_counterexample :
    fxStRound.player.ac = fxStRound.player.base_ac + equipment_ac_bonus fxStRound ∧
    (equip_item fxStRound "1").1 = true ∧
    (unequip_item (equip_item fxStRound "1").2.2 "chest").1 = true ∧
    (unequip_item (equip_item fxStRound "1").2.2 "chest").2.2.player.ac = 10 ∧
    fxStRound.player.ac = 12 := by
  refine ⟨by decide, by decide, by decide, by decide, by decide⟩

/-! ## Counting lemmas for the inventory limit (C6) -/

/-- The number of limit-counted items in a list. -/
def countedLen (l : List Item) : Int :=
  ((l.filter (fun i => item_counts_toward_limit i)).length : Int)

theorem count_foldl (l : List Item) (n : Int) :
    l.foldl (fun c i => if item_counts_toward_limit i then c + 1 else c) n =
      n + countedLen l := by
  induction l generalizing n with
  | nil => simp [countedLen]
  | cons x xs ih =>
    simp only [List.foldl_cons, List.filter_cons, countedLen] at *
    by_cases hx : item_counts_toward_limit x
    · simp only [hx, if_true, if_pos, ih, List.length_cons]
      push_cast
      ring
    · simp only [hx, if_false, Bool.false_eq_true, ih]

theorem inventory_used_counted (st : GameState) :
    inventory_used st = countedLen st.inventory := by
  unfold inventory_used
  rw [count_foldl]
  simp

theorem countedLen_append_one (l : List Item) (x : Item) :
    countedLen (l ++ [x]) = countedLen l + (if item_counts_toward_limit x then 1 else 0) := by
  simp only [countedLen, List.filter_append]
  by_cases hx : item_counts_toward_limit x <;> simp [hx]

theorem countedLen_nonneg (l : List Item) : 0 ≤ countedLen l := by
  simp [countedLen]

theorem countedLen_erase_le (l : List Item) (x : Item) :
    countedLen (l.erase x) ≤ countedLen l := by
  simp only [countedLen, Nat.cast_le]
  exact ((List.erase_sublist x l).filter _).length_le

/-- Failed equips return the state untouched. -/
theorem equip_item_fail (st : GameState) (q : String)
    (h : (equip_item st q).1 = false) : (equip_item st q).2.2 = st := by
  unfold equip_item at *
  cases hres : equip_resolve st (strTrim q) with
  | inr err => simp [hres]
  | inl item =>
    simp only [hres] at h ⊢
    by_cases hs : isSlot (strLower item.slot)
    · rw [if_neg (by simpa using hs)] at h ⊢
      cases hocc : (st.equipment.get (strLower item.slot)).join with
      | some cur =>
        simp only [hocc] at h ⊢
        by_cases hadd : can_add_item st cur
        · rw [if_neg (by simpa using hadd)] at h
          simp at h
        · rw [if_pos (by simpa using hadd)] at h ⊢
      | none =>
        simp only [hocc] at h
        simp at h
    · rw [if_pos (by simpa using hs)] at h ⊢

/-- Failed unequips return the state untouched. -/
theorem unequip_item_fail (st : GameState) (slot : String)
    (h : (unequip_item st slot).1 = false) : (unequip_item st slot).2.2 = st := by
  unfold unequip_item at *
  by_cases hs : isSlot (strLower (strTrim slot))
  · rw [if_neg (by simpa using hs)] at h ⊢
    cases hocc : (st.equipment.get (strLower (strTrim slot))).join with
    | none => simp only [hocc]
    | some cur =>
      simp only [hocc] at h ⊢
      by_cases hadd : can_add_item st cur
      · rw [if_neg (by simpa using hadd)] at h
        simp at h
      · rw [if_pos (by simpa using hadd)] at h ⊢
  · rw [if_pos (by simpa using hs)] at h ⊢

/-- `use_item` either leaves the inventory alone (any failure) or removes
the consumed potion; the limit is never touched. -/
theorem use_item_inventory (st : GameState) (q : String) (t : Option String)
    (supply : List Int) (res : (Bool × String) × GameState × List Int)
    (h : use_item st q t supply = some res) :
    (res.2.1.inventory = st.inventory ∨
      ∃ item, res.2.1.inventory = st.inventory.erase item) ∧
    res.2.1.inventory_limit = st.inventory_limit := by
  simp only [use_item] at h
  cases hfind : find_item st q (some "potion") with
  | mk fitem ferr =>
    rw [hfind] at h
    cases ferr with
    | some err =>
      simp only [Option.some.injEq] at h
      rw [← h]
      exact ⟨Or.inl rfl, rfl⟩
    | none =>
      cases fitem with
      | none =>
        simp only [Option.some.injEq] at h
        rw [← h]
        exact ⟨Or.inl rfl, rfl⟩
      | some item =>
        simp only at h
        by_cases hkind : strLower item.kind ≠ "potion"
        · rw [if_pos hkind] at h
          simp only [Option.some.injEq] at h
          rw [← h]
          exact ⟨Or.inl rfl, rfl⟩
        · rw [if_neg hkind] at h
          by_cases heff : (item.effect.getD {}).type ≠ "heal"
          · rw [if_pos heff] at h
            simp only [Option.some.injEq] at h
            rw [← h]
            exact ⟨Or.inl rfl, rfl⟩
          · rw [if_neg heff] at h
            cases hroll : roll_dice (item.effect.getD {}).dice supply with
            | none => rw [hroll] at h; simp at h
            | some amtTrip =>
              obtain ⟨amt, det, rest1⟩ := amtTrip
              rw [hroll] at h
              by_cases hside : (if strLower (strTrim (t.getD "")) = "mara" ∨
                  strLower (strTrim (t.getD "")) = "companion" ∨
                  strLower (strTrim (t.getD "")) = "her" then HealSide.companion
                else if strLower (strTrim (t.getD "")) = "me" ∨
                  strLower (strTrim (t.getD "")) = "self" ∨
                  strLower (strTrim (t.getD "")) = "player" ∨
                  strLower (strTrim (t.getD "")) = "you" then HealSide.player
                else if st.companion.hp > 0 ∧
                  st.companion.hp * max 1 st.player.max_hp <
                    st.player.hp * max 1 st.companion.max_hp then HealSide.companion
                else HealSide.player) = HealSide.player
              · rw [hside] at h
                simp only [Option.some.injEq] at h
                rw [← h]
                exact ⟨Or.inr ⟨item, rfl⟩, rfl⟩
              · have hside' : (if strLower (strTrim (t.getD "")) = "mara" ∨
                    strLower (strTrim (t.getD "")) = "companion" ∨
                    strLower (strTrim (t.getD "")) = "her" then HealSide.companion
                  else if strLower (strTrim (t.getD "")) = "me" ∨
                    strLower (strTrim (t.getD "")) = "self" ∨
                    strLower (strTrim (t.getD "")) = "player" ∨
                    strLower (strTrim (t.getD "")) = "you" then HealSide.player
                  else if st.companion.hp > 0 ∧
                    st.companion.hp * max 1 st.player.max_hp <
                      st.player.hp * max 1 st.companion.max_hp then HealSide.companion
                  else HealSide.player) = HealSide.companion := by
                  cases hcase : (if strLower (strTrim (t.getD "")) = "mara" ∨
                      strLower (strTrim (t.getD "")) = "companion" ∨
                      strLower (strTrim (t.getD "")) = "her" then HealSide.companion
                    else if strLower (strTrim (t.getD "")) = "me" ∨
                      strLower (strTrim (t.getD "")) = "self" ∨
                      strLower (strTrim (t.getD "")) = "player" ∨
                      strLower (strTrim (t.getD "")) = "you" then HealSide.player
                    else if st.companion.hp > 0 ∧
                      st.companion.hp * max 1 st.player.max_hp <
                        st.player.hp * max 1 st.companion.max_hp then HealSide.companion
                    else HealSide.player) with
                  | player => exact absurd hcase hside
                  | companion => rfl
                rw [hside'] at h
                simp only [Option.some.injEq] at h
                rw [← h]
                exact ⟨Or.inr ⟨item, rfl⟩, rfl⟩

theorem can_add_counted (st : GameState) (x : Item) (h : can_add_item st x = true)
    (hc : item_counts_toward_limit x = true) :
    countedLen st.inventory < st.inventory_limit := by
  unfold can_add_item at h
  rw [if_neg (by simp [hc])] at h
  rw [← inventory_used_counted]
  simpa using h

theorem add_item_preserves (st : GameState) (item : Item)
    (h : inventory_used st ≤ st.inventory_limit) :
    inventory_used (add_item_to_inventory st item).2.2 ≤
      (add_item_to_inventory st item).2.2.inventory_limit := by
  unfold add_item_to_inventory
  by_cases hc : can_add_item st item
  · rw [if_neg (by simpa using hc)]
    rw [inventory_used_counted] at h ⊢
    show countedLen (st.inventory ++ [item]) ≤ st.inventory_limit
    rw [countedLen_append_one]
    by_cases hcnt : item_counts_toward_limit item
    · have := can_add_counted st item (by simpa using hc) hcnt
      simp only [hcnt, if_true]
      omega
    · simp only [hcnt, Bool.false_eq_true, if_false]
      omega
  · rw [if_pos (by simpa using hc)]
    exact h

theorem invOp_preserves (camp : CampaignData) (op : InvOp) (st : GameState)
    (h : inventory_used st ≤ st.inventory_limit) :
    inventory_used (applyInvOp camp st op) ≤ (applyInvOp camp st op).inventory_limit := by
  cases op with
  | add item => exact add_item_preserves st item h
  | lootAdd itemId => exact add_item_preserves st (item_from_id camp itemId) h
  | equip query =>
    show inventory_used (equip_item st query).2.2 ≤ (equip_item st query).2.2.inventory_limit
    by_cases hok : (equip_item st query).1 = true
    · have heq : equip_item st query =
          (true, (equip_item st query).2.1, (equip_item st query).2.2) := by
        rw [← hok]
      obtain ⟨item, -, -, hcases⟩ := equip_success_shape st query _ _ heq
      rcases hcases with ⟨cur, -, hadd, hst'⟩ | ⟨-, hst'⟩
      · rw [hst']
        rw [inventory_used_counted] at h ⊢
        show countedLen ((st.inventory ++ [cur]).erase item) ≤ st.inventory_limit
        have h1 := countedLen_erase_le (st.inventory ++ [cur]) item
        rw [countedLen_append_one] at h1
        by_cases hcnt : item_counts_toward_limit cur
        · have := can_add_counted st cur hadd hcnt
          simp only [hcnt, if_true] at h1
          omega
        · simp only [hcnt, Bool.false_eq_true, if_false] at h1
          omega
      · rw [hst']
        rw [inventory_used_counted] at h ⊢
        show countedLen (st.inventory.erase item) ≤ st.inventory_limit
        have h1 := countedLen_erase_le st.inventory item
        omega
    · rw [equip_item_fail st query (by simpa using hok)]
      exact h
  | unequip slot =>
    show inventory_used (unequip_item st slot).2.2 ≤ (unequip_item st slot).2.2.inventory_limit
    by_cases hok : (unequip_item st slot).1 = true
    · have hun : unequip_item st slot =
          (true, (unequip_item st slot).2.1, (unequip_item st slot).2.2) := by
        rw [← hok]
      obtain ⟨-, cur, -, hadd, hst'⟩ := unequip_success_shape st slot _ _ hun
      rw [hst']
      rw [inventory_used_counted] at h ⊢
      show countedLen (st.inventory ++ [cur]) ≤ st.inventory_limit
      rw [countedLen_append_one]
      by_cases hcnt : item_counts_toward_limit cur
      · have := can_add_counted st cur hadd hcnt
        simp only [hcnt, if_true]
        omega
      · simp only [hcnt, Bool.false_eq_true, if_false]
        omega
    · rw [unequip_item_fail st slot (by simpa using hok)]
      exact h
  | use query target supply =>
    cases hrun : use_item st query target supply with
    | none => simpa [applyInvOp, hrun] using h
    | some res =>
      obtain ⟨⟨ok, msg⟩, st', rest⟩ := res
      obtain ⟨hinv, hlim⟩ := use_item_inventory st query target supply _ hrun
      simp only [applyInvOp, hrun]
      rw [inventory_used_counted, hlim]
      rw [inventory_used_counted] at h
      rcases hinv with hsame | ⟨item, herase⟩
      · rw [hsame]
        exact h
      · rw [herase]
        have := countedLen_erase_le st.inventory item
        omega

/-- C6: under every sequence of inventory operations (adds, loot adds,
equips, unequips, potion uses) the count of limit-counted items never
exceeds the inventory limit; and adding an item marked as not counting
toward the limit (a quest item) always succeeds. -/
theorem C6_inventory_limit :
    (∀ camp : CampaignData, ∀ ops : List InvOp, ∀ st : GameState,
      inventory_used st ≤ st.inventory_limit →
      inventory_used (applyInvOps camp ops st) ≤ (applyInvOps camp ops st).inventory_limit) ∧
    (∀ st : GameState, ∀ item : Item,
      item.counts_toward_limit = false → (add_item_to_inventory st item).1 = true) := by
  constructor
  · intro camp ops
    induction ops with
    | nil => intro st h; simpa [applyInvOps] using h
    | cons op ops ih =>
      intro st h
      have h1 := invOp_preserves camp op st h
      have h2 := ih (applyInvOp camp st op) h1
      simpa [applyInvOps] using h2
  · intro st item hfree
    unfold add_item_to_inventory can_add_item item_counts_toward_limit
    simp [hfree]

/-- C6 witness: a short concrete run — loot the amulet, equip armor over an
occupied slot, drink a potion — stays within a limit of 2; and a
non-counting quest item is accepted into a full pack. -/
theorem C6_inventory_limit_witness :
    inventory_used fxStLootFull ≤ fxStLootFull.inventory_limit ∧
    inventory_used (applyInvOps fxCamp
        [.lootAdd "healing_potion", .equip "1", .use "potion" none [3]] fxStLootFull) ≤
      (applyInvOps fxCamp
        [.lootAdd "healing_potion", .equip "1", .use "potion" none [3]] fxStLootFull).inventory_limit ∧
    (add_item_to_inventory fxStLootFull
      { id := "amulet", name := "Ancient Amulet", kind := "quest",
        counts_toward_limit := false }).1 = true := by
  refine ⟨by decide, ?_, ?_⟩
  · exact C6_inventory_limit.1 fxCamp
      [.lootAdd "healing_potion", .equip "1", .use "potion" none [3]] fxStLootFull (by decide)
  · exact C6_inventory_limit.2 fxStLootFull
      { id := "amulet", name := "Ancient Amulet", kind := "quest",
        counts_toward_limit := false } rfl

/-! ## Lemmas relating the XP loop to the spec's reading (C7) -/

theorem check_level_up_iff (st : GameState) :
    check_level_up st = true ↔
      (st.player.level < XP_TABLE.length ∧ XP_TABLE.getD st.player.level 0 ≤ st.player.xp) := by
  have hlen : XP_TABLE.length = 10 := rfl
  unfold check_level_up xp_for_level
  simp only [Bool.and_eq_true, decide_eq_true_eq]
  constructor
  · rintro ⟨hxp, hlvl⟩
    refine ⟨hlvl, ?_⟩
    rw [if_neg (by omega : ¬ (st.player.level + 1 = 0)),
      show min (st.player.level + 1 - 1) (XP_TABLE.length - 1) = st.player.level by
        rw [hlen] at hlvl ⊢; omega] at hxp
    exact hxp
  · rintro ⟨hlvl, hxp⟩
    refine ⟨?_, hlvl⟩
    rw [if_neg (by omega : ¬ (st.player.level + 1 = 0)),
      show min (st.player.level + 1 - 1) (XP_TABLE.length - 1) = st.player.level by
        rw [hlen] at hlvl ⊢; omega]
    exact hxp

theorem levelUpSpecStep_eq (profile : ClassProfile) (p : Character) :
    levelUpSpecStep profile p = levelUpPlayer profile p := rfl

theorem apply_level_up_shape (st : GameState) (msg : String) (st1 : GameState)
    (h : apply_level_up st = some (msg, st1)) :
    ∃ prof, get_class_profile st.player.cls = some prof ∧
      st1.player = levelUpPlayer prof st.player := by
  unfold apply_level_up at h
  cases hp : get_class_profile st.player.cls with
  | none => rw [hp] at h; simp at h
  | some prof =>
    simp only [hp, Option.some.injEq, Prod.mk.injEq] at h
    refine ⟨prof, rfl, ?_⟩
    obtain ⟨-, h2⟩ := h
    rw [← h2]
    split <;> rfl

theorem grantLoop_spec (st : GameState) (msgs : List String) (st' : GameState)
    (h : grantLoop st = some (msgs, st')) :
    grantXpSpecLoop st.player = some (msgs.length, st'.player) := by
  suffices H : ∀ k, ∀ st : GameState, ∀ msgs : List String, ∀ st' : GameState,
      XP_TABLE.length + 1 - st.player.level ≤ k → grantLoop st = some (msgs, st') →
      grantXpSpecLoop st.player = some (msgs.length, st'.player) from
    H (XP_TABLE.length + 1 - st.player.level) st msgs st' le_rfl h
  intro k
  induction k with
  | zero =>
    intro st msgs st' hk h
    have hlen : XP_TABLE.length = 10 := rfl
    have hc : check_level_up st = false := by
      have : ¬ (st.player.level < XP_TABLE.length) := by omega
      unfold check_level_up
      simp [this]
    unfold grantLoop at h
    rw [dif_neg (by simp [hc])] at h
    simp only [Option.some.injEq, Prod.mk.injEq] at h
    obtain ⟨h1, h2⟩ := h
    unfold grantXpSpecLoop
    rw [dif_neg (by
      intro hcond
      exact absurd ((check_level_up_iff st).mpr hcond) (by simp [hc]))]
    rw [← h1, ← h2]
    rfl
  | succ k ih =>
    intro st msgs st' hk h
    unfold grantLoop at h
    by_cases hc : check_level_up st = true
    · rw [dif_pos hc] at h
      split at h
      · exact (Option.noConfusion h)
      · next msg st1 hau =>
        cases hrec : grantLoop st1 with
        | none =>
          simp only [hrec] at h
          exact Option.noConfusion h
        | some pr =>
          obtain ⟨msgs1, st2⟩ := pr
          simp only [hrec, Option.some.injEq, Prod.mk.injEq] at h
          obtain ⟨hmsgs, hst2⟩ := h
          have hlvl1 : st1.player.level = st.player.level + 1 :=
            apply_level_up_level st msg st1 hau
          have hlvlb : st.player.level < XP_TABLE.length := by
            unfold check_level_up at hc
            simp only [Bool.and_eq_true, decide_eq_true_eq] at hc
            exact hc.2
          have ih' := ih st1 msgs1 st2 (by omega) hrec
          obtain ⟨prof, hprof, hplayer⟩ := apply_level_up_shape st msg st1 hau
          unfold grantXpSpecLoop
          rw [dif_pos ((check_level_up_iff st).mp hc)]
          simp only [hprof]
          rw [levelUpSpecStep_eq, ← hplayer, ih']
          rw [← hmsgs, ← hst2]
          simp
    · rw [dif_neg (by simpa using hc)] at h
      simp only [Option.some.injEq, Prod.mk.injEq] at h
      obtain ⟨h1, h2⟩ := h
      unfold grantXpSpecLoop
      rw [dif_neg (by
        intro hcond
        exact hc ((check_level_up_iff st).mpr hcond))]
      rw [← h1, ← h2]
      rfl

/-- One unfolding step of `grantLoop` when a level-up fires: the result is
the recursive call on the levelled-up state, with the message prepended. -/
theorem grantLoop_step (st : GameState) (hc : check_level_up st = true)
    (msg : String) (st1 : GameState)
    (hau : apply_level_up st = some (msg, st1)) :
    grantLoop st = (match grantLoop st1 with
      | none => none
      | some (msgs, st2) => some (msg :: msgs, st2)) := by
  conv_lhs => unfold grantLoop
  rw [dif_pos hc]
  split
  · next h2 =>
    rw [hau] at h2
    exact Option.noConfusion h2
  · next m s1 h2 =>
    rw [hau] at h2
    simp only [Option.some.injEq, Prod.mk.injEq] at h2
    rw [h2.1, h2.2]

/-- `grantLoop` terminates immediately when no level-up is due. -/
theorem grantLoop_done (st : GameState) (hc : check_level_up st = false) :
    grantLoop st = some ([], st) := by
  unfold grantLoop
  rw [dif_neg (by simp [hc])]

/-- Progression state: the level-1 Fighter with 0 XP. -/
def fxStLevel : GameState :=
  { player := fxFighter, companions := [fxMara], campaign_id := "c", room_id := "r" }

/-- After granting 100 XP: exactly one level-up — level 2, +2 HP and max HP
(Fighter's hp_per_level), +1 attack bonus (even level), no mana (melee). -/
def fxStLevel2 : GameState :=
  { fxStLevel with player := { fxFighter with
      xp := 100, level := 2, hp := 12, max_hp := 14, attack_bonus := 4 } }

/-- C7: granting a positive XP amount adds it to the total and then applies
level-ups exactly as the spec words it — while level < table length and
XP ≥ the next level's threshold; each level-up increments the level, adds
the class's HP-per-level to current and max HP, adds +1 attack bonus
exactly on even new levels, and refills casters to a +2 max mana
(`grantXpSpec` is that spec-side loop, and `grant_xp` refines it, one
message per level-up).  In particular 100 XP at level 1 with threshold 100
fires exactly one level-up. -/
theorem C7_grant_xp_refines_spec :
    (∀ st : GameState, ∀ amount : Int, ∀ msgs : List String, ∀ st' : GameState,
      0 < amount →
      grant_xp st amount = some (msgs, st') →
      grantXpSpec st.player amount = some (msgs.length, st'.player)) ∧
    grant_xp fxStLevel 100 = some (["Level up! Hero is now level 2."], fxStLevel2) := by
  constructor
  · intro st amount msgs st' hpos h
    unfold grant_xp at h
    rw [if_neg (by omega)] at h
    unfold grantXpSpec
    rw [if_neg (by omega)]
    exact grantLoop_spec _ msgs st' h
  · unfold grant_xp
    rw [if_neg (by norm_num)]
    rw [grantLoop_step _ (by decide) "Level up! Hero is now level 2." fxStLevel2
      (by decide)]
    rw [grantLoop_done fxStLevel2 (by decide)]

/-- C7 witness: the refinement applied at the concrete 100-XP instance —
the spec-side loop fires exactly one level-up and lands on the same
player. -/
theorem C7_grant_xp_refines_spec_witness :
    grantXpSpec fxStLevel.player 100 = some (1, fxStLevel2.player) := by
  have h := C7_grant_xp_refines_spec.1 fxStLevel 100 ["Level up! Hero is now level 2."]
    fxStLevel2 (by norm_num) C7_grant_xp_refines_spec.2
  simpa using h

/-- Reading a key from a cons cell: hit the head or recurse. -/
theorem flagsGet_cons (a : String × FlagVal) (f : List (String × FlagVal)) (k : String) :
    flagsGet (a :: f) k = if a.1 = k then some a.2 else flagsGet f k := by
  unfold flagsGet
  by_cases h : a.1 = k
  · simp [List.find?_cons, h]
  · simp [List.find?_cons, h]

/-- Reading from an empty flag table. -/
theorem flagsGet_nil (k : String) : flagsGet ([] : List (String × FlagVal)) k = none := rfl

/-- Writing key `k` then reading `k` yields the written value (replace branch). -/
theorem flagsGet_map_self (k : String) (v : FlagVal) :
    ∀ f : List (String × FlagVal), f.any (fun p => p.1 = k) = true →
    flagsGet (f.map (fun p => if p.1 = k then (k, v) else p)) k = some v := by
  intro f
  induction f with
  | nil => intro h; simp at h
  | cons a f ih =>
    intro h
    by_cases ha : a.1 = k
    · simp [List.map_cons, flagsGet_cons, ha]
    · have h2 : f.any (fun p => p.1 = k) = true := by simpa [ha] using h
      simp [List.map_cons, flagsGet_cons, ha, ih h2]

/-- Writing key `k` then reading `k` yields the written value (append branch). -/
theorem flagsGet_append_self (k : String) (v : FlagVal) :
    ∀ f : List (String × FlagVal), f.any (fun p => p.1 = k) = false →
    flagsGet (f ++ [(k, v)]) k = some v := by
  intro f
  induction f with
  | nil => intro h; simp [flagsGet_cons]
  | cons a f ih =>
    intro h
    simp only [List.any_cons, Bool.or_eq_false_iff, decide_eq_false_iff_not] at h
    simp [List.cons_append, flagsGet_cons, h.1, ih (by simpa using h.2)]

/-- `flags[k] = v` then `flags.get(k)` is `v`. -/
theorem flagsGet_set_self (f : List (String × FlagVal)) (k : String) (v : FlagVal) :
    flagsGet (flagsSet f k v) k = some v := by
  unfold flagsSet
  cases hany : f.any (fun p => p.1 = k) with
  | true => rw [if_pos rfl]; exact flagsGet_map_self k v f hany
  | false => rw [if_neg (by simp)]; exact flagsGet_append_self k v f hany

/-- Writing key `k` leaves reads of another key unchanged (replace branch). -/
theorem flagsGet_map_ne (k kk : String) (v : FlagVal) (hne : kk ≠ k) :
    ∀ f : List (String × FlagVal),
    flagsGet (f.map (fun p => if p.1 = k then (k, v) else p)) kk = flagsGet f kk := by
  intro f
  induction f with
  | nil => rfl
  | cons a f ih =>
    by_cases ha : a.1 = k
    · simp [List.map_cons, flagsGet_cons, ha, Ne.symm hne, ih]
    · by_cases ha2 : a.1 = kk
      · simp [List.map_cons, flagsGet_cons, ha, ha2, hne]
      · simp [List.map_cons, flagsGet_cons, ha, ha2, ih]

/-- Writing key `k` leaves reads of another key unchanged (append branch). -/
theorem flagsGet_append_ne (k kk : String) (v : FlagVal) (hne : kk ≠ k) :
    ∀ f : List (String × FlagVal),
    flagsGet (f ++ [(k, v)]) kk = flagsGet f kk := by
  intro f
  induction f with
  | nil => simp [flagsGet_cons, flagsGet_nil, Ne.symm hne]
  | cons a f ih =>
    by_cases ha : a.1 = kk
    · simp [List.cons_append, flagsGet_cons, ha]
    · simp [List.cons_append, flagsGet_cons, ha, ih]

/-- `flags[k] = v` does not change `flags.get(kk)` for `kk ≠ k`. -/
theorem flagsGet_set_ne (f : List (String × FlagVal)) (k kk : String) (v : FlagVal)
    (hne : kk ≠ k) : flagsGet (flagsSet f k v) kk = flagsGet f kk := by
  unfold flagsSet
  cases hany : f.any (fun p => p.1 = k) with
  | true => rw [if_pos rfl]; exact flagsGet_map_ne k kk v hne f
  | false => rw [if_neg (by simp)]; exact flagsGet_append_ne k kk v hne f
/-- A level-up only touches the player (and the pending choices), never the
flag table. -/
theorem apply_level_up_flags (st : GameState) (msg : String) (st1 : GameState)
    (h : apply_level_up st = some (msg, st1)) : st1.flags = st.flags := by
  unfold apply_level_up at h
  cases hp : get_class_profile st.player.cls with
  | none => rw [hp] at h; exact Option.noConfusion h
  | some prof =>
    simp only [hp, Option.some.injEq, Prod.mk.injEq] at h
    obtain ⟨-, h2⟩ := h
    rw [← h2]
    split <;> rfl

/-- The level-up loop never touches the flag table. -/
theorem grantLoop_flags (st : GameState) (msgs : List String) (st' : GameState)
    (h : grantLoop st = some (msgs, st')) : st'.flags = st.flags := by
  suffices H : ∀ k, ∀ st : GameState, ∀ msgs : List String, ∀ st' : GameState,
      XP_TABLE.length + 1 - st.player.level ≤ k → grantLoop st = some (msgs, st') →
      st'.flags = st.flags from
    H (XP_TABLE.length + 1 - st.player.level) st msgs st' le_rfl h
  intro k
  induction k with
  | zero =>
    intro st msgs st' hk h
    have hlen : XP_TABLE.length = 10 := rfl
    have hc : check_level_up st = false := by
      have : ¬ (st.player.level < XP_TABLE.length) := by omega
      unfold check_level_up
      simp [this]
    rw [grantLoop_done st hc] at h
    simp only [Option.some.injEq, Prod.mk.injEq] at h
    rw [← h.2]
  | succ k ih =>
    intro st msgs st' hk h
    by_cases hc : check_level_up st = true
    · unfold grantLoop at h
      rw [dif_pos hc] at h
      split at h
      · exact Option.noConfusion h
      · next msg st1 hau =>
        cases hrec : grantLoop st1 with
        | none =>
          simp only [hrec] at h
          exact Option.noConfusion h
        | some pr =>
          obtain ⟨msgs1, st2⟩ := pr
          simp only [hrec, Option.some.injEq, Prod.mk.injEq] at h
          have hlvl1 : st1.player.level = st.player.level + 1 :=
            apply_level_up_level st msg st1 hau
          have hlvlb : st.player.level < XP_TABLE.length := by
            unfold check_level_up at hc
            simp only [Bool.and_eq_true, decide_eq_true_eq] at hc
            exact hc.2
          have h1 := ih st1 msgs1 st2 (by omega) hrec
          rw [← h.2, h1, apply_level_up_flags st msg st1 hau]
    · have hc2 : check_level_up st = false := by simpa using hc
      rw [grantLoop_done st hc2] at h
      simp only [Option.some.injEq, Prod.mk.injEq] at h
      rw [← h.2]

/-- `grant_xp` never touches the flag table. -/
theorem grant_xp_flags (st : GameState) (amount : Int) (msgs : List String)
    (st' : GameState) (h : grant_xp st amount = some (msgs, st')) :
    st'.flags = st.flags := by
  unfold grant_xp at h
  split at h
  · simp only [Option.some.injEq, Prod.mk.injEq] at h
    rw [← h.2]
  · have h2 := grantLoop_flags _ msgs st' h
    exact h2

/-- The corpse-entry loop only writes the `next_corpse_id` counter flag. -/
theorem corpseEntriesLoop_flags (kk : String) (hk : kk ≠ "next_corpse_id") :
    ∀ es : List Enemy, ∀ st : GameState, ∀ rest : List Corpse, ∀ stE : GameState,
    corpseEntriesLoop st es = (rest, stE) →
    flagsGet stE.flags kk = flagsGet st.flags kk := by
  intro es
  induction es with
  | nil =>
    intro st rest stE h
    simp only [corpseEntriesLoop, Prod.mk.injEq] at h
    rw [← h.2]
  | cons e es ih =>
    intro st rest stE h
    cases hnc : next_corpse_id st with
    | mk cid st1 =>
      simp only [corpseEntriesLoop, hnc] at h
      cases hrec : corpseEntriesLoop st1 es with
      | mk rest1 st2 =>
        simp only [hrec, Prod.mk.injEq] at h
        have h1 := ih st1 rest1 st2 hrec
        have h2 : st1.flags = flagsSet st.flags "next_corpse_id"
            (FlagVal.int ((next_corpse_id st).1 + 1)) := by
          unfold next_corpse_id at hnc ⊢
          simp only [Prod.mk.injEq] at hnc
          rw [← hnc.2]
        rw [← h.2, h1, h2, flagsGet_set_ne _ _ _ _ hk]

/-- Reading the corpse table only (possibly) writes the queried key. -/
theorem get_flag_dict_flags (st : GameState) (key kk : String) (hk : kk ≠ key) :
    flagsGet (get_flag_dict st key).2.flags kk = flagsGet st.flags kk := by
  unfold get_flag_dict
  split
  · rfl
  · exact flagsGet_set_ne _ _ _ _ hk
/-- A combat room that is already on the defeated list. -/
def fxCombatRoom : Room :=
  { room_id := "r2", name := "Tower", description := "The tower is quiet.",
    kind := "combat", enemy_name := some "Bone" }

/-- A zero-XP mob template (so victory grants no XP). -/
def fxBone : MobProfile :=
  { name := "Bone", hp := 6, ac := 10, attack_bonus := 1, damage := "1d6", xp := 0 }

/-- A registry holding only the zero-XP mob. -/
def fxCamp3 : CampaignData :=
  { items := fun _ => none,
    mobs := fun n => if n = "Bone" then some fxBone else none }

/-- A combat state on the verge of victory in room `r2`, with another room
already recorded as defeated. -/
def fxStVict : GameState :=
  { player := fxFighter, companions := [fxMara], campaign_id := "c", room_id := "r2",
    in_combat := true,
    enemies := [{ name := "Bone", hp := 0, max_hp := 6, ac := 10, attack_bonus := 1,
                  damage := "1d6" }],
    flags := [("defeated_rooms", FlagVal.list ["other"])] }

/-- The state after that victory: `r2` appended to the defeated list once,
a corpse recorded, combat over. -/
def fxStVictAfter : GameState :=
  { fxStVict with
      in_combat := false
      enemies := []
      flags := [("defeated_rooms", FlagVal.list ["other", "r2"]),
                ("corpses", FlagVal.table [("r2", [{ id := 1, name := "Bone", looted := false }])]),
                ("next_corpse_id", FlagVal.int 2)] }

/-- The victory message for that state. -/
def fxVictMsg : String :=
  "The foes fall. Corpses: 1. Bone. You can 'loot <number>' or 'loot all'. The way forward is clear."

/-- A state standing in the already-defeated combat room `r2`. -/
def fxStDef : GameState :=
  { player := fxFighter, campaign_id := "c", room_id := "r2",
    flags := [("defeated_rooms", FlagVal.list ["r2"])] }

/-- C8: a room id is appended to `defeated_rooms` at most once — whenever
end-of-combat detection runs on a state whose defeated list has no
duplicates, the resulting list still has no duplicates and is either
unchanged or extended by the current room's id exactly when that id was
absent; and entering a combat room whose id is already on the defeated
list just returns the room description, spawning no enemies and leaving
the combat flag and the flag table untouched. -/
theorem C8_defeated_rooms_once :
    (∀ camp : CampaignData, ∀ st : GameState, ∀ out : Option String, ∀ st' : GameState,
      ∀ xs : List String,
      end_combat_if_needed camp st = some (out, st') →
      flagsGet st.flags "defeated_rooms" = some (FlagVal.list xs) →
      xs.Nodup →
      ∃ ys, flagsGet st'.flags "defeated_rooms" = some (FlagVal.list ys) ∧ ys.Nodup ∧
        (ys = xs ∨ (st.room_id ∉ xs ∧ ys = xs ++ [st.room_id]))) ∧
    (∀ camp : CampaignData, ∀ st : GameState, ∀ room : Room, ∀ supply : List Int,
      ∀ xs : List String,
      room.kind = "combat" →
      flagsGet st.flags "defeated_rooms" = some (FlagVal.list xs) →
      room.room_id ∈ xs →
      ∃ st2, start_room camp st room supply = some (room.description, st2, supply) ∧
        st2.enemies = st.enemies ∧ st2.in_combat = st.in_combat ∧
        st2.flags = st.flags) := by
  constructor
  · intro camp st out st' xs h hget hnd
    unfold end_combat_if_needed at h
    split at h
    · simp only [Option.some.injEq, Prod.mk.injEq] at h
      refine ⟨xs, ?_, hnd, Or.inl rfl⟩
      rw [← h.2]
      exact hget
    · split at h
      · -- victory branch
        simp only [get_flag_list, hget] at h
        have hkey : flagsGet st'.flags "defeated_rooms" =
            some (FlagVal.list (if xs.contains st.room_id then xs
              else xs ++ [st.room_id])) := by
          split at h
          · exact Option.noConfusion h
          · next xps hxp =>
            split at h
            · exact Option.noConfusion h
            · next lvlmsgs stB hgx =>
              have hflB : stB.flags =
                  flagsSet st.flags "defeated_rooms"
                    (FlagVal.list (if xs.contains st.room_id then xs
                      else xs ++ [st.room_id])) := by
                split at hgx
                · have h2 := grant_xp_flags _ _ _ _ hgx
                  exact h2
                · simp only [Option.some.injEq, Prod.mk.injEq] at hgx
                  rw [← hgx.2]
              cases hgd : get_flag_dict stB "corpses" with
              | mk cmap stC =>
                simp only [hgd] at h
                cases hce : corpseEntriesLoop stC stC.enemies with
                | mk entries stD =>
                  simp only [hce] at h
                  simp only [Option.some.injEq, Prod.mk.injEq] at h
                  rw [← h.2]
                  have s1 : flagsGet (flagsSet stD.flags "corpses"
                      (FlagVal.table (tableSet cmap stD.room_id entries)))
                      "defeated_rooms" = flagsGet stD.flags "defeated_rooms" :=
                    flagsGet_set_ne _ _ _ _ (by decide)
                  have s2 := corpseEntriesLoop_flags "defeated_rooms" (by decide)
                    stC.enemies stC entries stD hce
                  have s3 := get_flag_dict_flags stB "corpses" "defeated_rooms" (by decide)
                  rw [hgd] at s3
                  have s4 : flagsGet stB.flags "defeated_rooms" =
                      some (FlagVal.list (if xs.contains st.room_id then xs
                        else xs ++ [st.room_id])) := by
                    rw [hflB]
                    exact flagsGet_set_self _ _ _
                  exact s1.trans (s2.trans (s3.trans s4))
        by_cases hcon : xs.contains st.room_id = true
        · rw [if_pos hcon] at hkey
          exact ⟨xs, hkey, hnd, Or.inl rfl⟩
        · have hnm : st.room_id ∉ xs := by
            intro hm
            exact hcon (List.elem_eq_true_of_mem hm)
          rw [if_neg (fun hc => hnm (List.mem_of_elem_eq_true hc))] at hkey
          refine ⟨xs ++ [st.room_id], hkey, ?_, Or.inr ⟨hnm, rfl⟩⟩
          simp [List.nodup_append, hnd, hnm]
      · split at h
        · simp only [Option.some.injEq, Prod.mk.injEq] at h
          refine ⟨xs, ?_, hnd, Or.inl rfl⟩
          rw [← h.2]
          exact hget
        · simp only [Option.some.injEq, Prod.mk.injEq] at h
          refine ⟨xs, ?_, hnd, Or.inl rfl⟩
          rw [← h.2]
          exact hget
  · intro camp st room supply xs hkind hget hmem
    refine ⟨(if st.visited.contains room.room_id then st
      else { st with visited := st.visited ++ [room.room_id] }), ?_, ?_, ?_, ?_⟩
    · unfold start_room
      have hfl : (if st.visited.contains room.room_id then st
          else { st with visited := st.visited ++ [room.room_id] }).flags = st.flags := by
        split <;> rfl
      simp only [get_flag_list, hfl, hget]
      rw [if_neg (fun hcond => hcond.2 (List.elem_eq_true_of_mem hmem))]
    · split <;> rfl
    · split <;> rfl
    · split <;> rfl

/-- C8 witness: the theorem applied at the concrete victory over the zero-XP
mob in room `r2` (already-defeated list `["other"]`), and at entering the
already-defeated combat room `r2`. -/
theorem C8_defeated_rooms_once_witness :
    (∃ ys, flagsGet fxStVictAfter.flags "defeated_rooms" = some (FlagVal.list ys) ∧
      ys.Nodup ∧ (ys = ["other"] ∨
        (fxStVict.room_id ∉ ["other"] ∧ ys = ["other"] ++ [fxStVict.room_id]))) ∧
    (∃ st2, start_room fxCamp3 fxStDef fxCombatRoom [] =
        some (fxCombatRoom.description, st2, []) ∧
      st2.enemies = fxStDef.enemies ∧ st2.in_combat = fxStDef.in_combat ∧
      st2.flags = fxStDef.flags) := by
  constructor
  · exact C8_defeated_rooms_once.1 fxCamp3 fxStVict (some fxVictMsg) fxStVictAfter
      ["other"] (by decide) (by decide) (by decide)
  · exact C8_defeated_rooms_once.2 fxCamp3 fxStDef fxCombatRoom [] ["r2"]
      rfl (by decide) (by decide)

end SoloAdv
